import Mathlib

set_option maxRecDepth 8192

/-! Shallow embedding of the treasuryflow payout engine.

Three contract variants are embedded, each in its own namespace:

* `ContractTreasury`   — src/contract_treasury/lib.rs (the consolidated ink! contract
  with OneTime/Recurring/Vested stored payouts, an id→index mapping, an archive
  mapping, a cached pending count and a monotonic id counter);
* `ContractTreasuryV5` — src/contract_treasury_v5/lib.rs (flat `Payout` records,
  treasurer set, threshold table, pending/past vectors, ids derived from the
  pending-vector length);
* `ContractTreasuryV6` — src/contract_treasury_v6/lib.rs (like v5 but with a
  monotonic `next_payout_id` counter and a past-payout mapping).

Machine integers (`u32`, `u128`, `U256`) are modelled as `Nat` together with the
explicit saturating / checked operations the source uses at each site.  H160
addresses and AccountIds are modelled as `Nat`.  The ink! environment (caller,
block number, and the fallible external transfer primitive) is passed in as an
explicit `Env` record; the transfer primitive is an oracle indexed by the
sequence number of the transfer attempt inside one call, together with the
recipient and amount handed to it.  `Mapping` storage is modelled as an
association list with overwrite-insert (`ainsert`), first-match lookup
(`alookup`) and key removal (`aremove`). -/

def u32Max : Nat := 4294967295

def u128Max : Nat := 340282366920938463463374607431768211455

def U256Max : Nat := 115792089237316195423570985008687907853269984665640564039457584007913129639935

def satAdd32 (a b : Nat) : Nat := min (a + b) u32Max

def satAdd256 (a b : Nat) : Nat := min (a + b) U256Max

def checkedAdd32 (a b : Nat) : Option Nat := if a + b ≤ u32Max then some (a + b) else none

def checkedMul32 (a b : Nat) : Option Nat := if a * b ≤ u32Max then some (a * b) else none

def checkedDivNat (a b : Nat) : Option Nat := if b = 0 then none else some (a / b)

def checkedMul256 (a b : Nat) : Option Nat := if a * b ≤ U256Max then some (a * b) else none

def listHas (l : List Nat) (x : Nat) : Bool :=
  match l with
  | [] => false
  | y :: rest => if y = x then true else listHas rest x

def alookup {α : Type} : List (Nat × α) → Nat → Option α
  | [], _ => none
  | e :: rest, k => if e.1 = k then some e.2 else alookup rest k

def ainsert {α : Type} : List (Nat × α) → Nat → α → List (Nat × α)
  | [], k, v => [(k, v)]
  | e :: rest, k, v => if e.1 = k then (k, v) :: rest else e :: ainsert rest k v

def aremove {α : Type} : List (Nat × α) → Nat → List (Nat × α)
  | [], _ => []
  | e :: rest, k => if e.1 = k then aremove rest k else e :: aremove rest k

namespace ContractTreasury

inductive PayoutStatus where
  | Pending
  | Active
  | Completed (block : Nat)
  | Cancelled (block : Nat)
deriving DecidableEq

structure OneTimeData where
  to_addr : Nat
  amount : Nat
  scheduled_block : Option Nat
deriving DecidableEq

structure RecurringData where
  to_addr : Nat
  amount_per_payment : Nat
  interval_blocks : Nat
  total_payments : Nat
  start_block : Option Nat
deriving DecidableEq

structure VestedData where
  to_addr : Nat
  total_amount : Nat
  vesting_duration_blocks : Nat
  vesting_interval_blocks : Nat
  cliff_block : Option Nat
deriving DecidableEq

structure StoredOneTimePayout where
  data : OneTimeData
  id : Nat
  created_block : Nat
  status : PayoutStatus
deriving DecidableEq

structure StoredRecurringPayout where
  data : RecurringData
  id : Nat
  remaining_payments : Nat
  created_block : Nat
  status : PayoutStatus
deriving DecidableEq

structure StoredVestedPayout where
  data : VestedData
  id : Nat
  remaining_periods : Nat
  original_total_periods : Nat
  created_block : Nat
  released_amount : Nat
  status : PayoutStatus
deriving DecidableEq

inductive Payout where
  | OneTime (stored : StoredOneTimePayout)
  | Recurring (stored : StoredRecurringPayout)
  | Vested (stored : StoredVestedPayout)
deriving DecidableEq

inductive Error where
  | NotOwner
  | NotTreasurer
  | InsufficientBalance
  | InvalidFrequency
  | TooEarlyToProcess
  | TreasurerExists
  | PayoutNotFound
  | Reentrancy
  | PrecisionLoss
  | InvalidCliffBlock
  | InvalidVestingDuration
  | InvalidVestingInterval
deriving DecidableEq

/-- The ink! environment of one contract call: caller, current block number, and
the external transfer primitive, modelled as an oracle taking the sequence
number of the transfer attempt within the call, the recipient and the amount,
and returning whether the transfer succeeds. -/
structure Env where
  caller : Nat
  block_number : Nat
  transfer_ok : Nat → Nat → Nat → Bool

structure Treasury where
  owner : Nat
  pending_payout_ids : List Nat
  payouts : List Payout
  processed_payout_ids : List Nat
  archived_payouts : List (Nat × Payout)
  payout_index : List (Nat × Nat)
  is_processing : Bool
  next_payout_id : Nat
  pending_count : Nat
deriving DecidableEq

def get_payout_info : Payout → Nat × Nat × PayoutStatus
  | .OneTime stored => (stored.id, stored.data.to_addr, stored.status)
  | .Recurring stored => (stored.id, stored.data.to_addr, stored.status)
  | .Vested stored => (stored.id, stored.data.to_addr, stored.status)

def payoutId (p : Payout) : Nat := (get_payout_info p).1

def payoutTo (p : Payout) : Nat := (get_payout_info p).2.1

def payoutStatus (p : Payout) : PayoutStatus := (get_payout_info p).2.2

def isTerminal : PayoutStatus → Bool
  | .Completed _ => true
  | .Cancelled _ => true
  | _ => false

def get_payout_by_id (t : Treasury) (id : Nat) : Option Payout :=
  match alookup t.payout_index id with
  | some index => t.payouts[index]?
  | none => alookup t.archived_payouts id

def is_ready (current_block : Nat) (p : Payout) : Bool :=
  match p with
  | .OneTime stored =>
      match stored.data.scheduled_block with
      | none => true
      | some block => decide (block ≤ current_block)
  | .Recurring stored =>
      match stored.data.start_block with
      | none => true
      | some start_block => decide (start_block ≤ current_block)
  | .Vested stored =>
      match stored.data.cliff_block with
      | none => true
      | some cliff_block => decide (cliff_block ≤ current_block)

def set_status_completed (current_block : Nat) : Payout → Payout
  | .OneTime stored => .OneTime { stored with status := .Completed current_block }
  | .Recurring stored => .Recurring { stored with status := .Completed current_block }
  | .Vested stored => .Vested { stored with status := .Completed current_block }

def set_status_cancelled (current_block : Nat) : Payout → Payout
  | .OneTime stored => .OneTime { stored with status := .Cancelled current_block }
  | .Recurring stored => .Recurring { stored with status := .Cancelled current_block }
  | .Vested stored => .Vested { stored with status := .Cancelled current_block }

def move_to_processed (current_block : Nat) (t : Treasury) (payout : Payout) : Treasury :=
  let payout' := set_status_completed current_block payout
  let payout_id := (get_payout_info payout').1
  { t with
      archived_payouts := ainsert t.archived_payouts payout_id payout',
      processed_payout_ids := t.processed_payout_ids ++ [payout_id] }

def PRECISION_FACTOR : Nat := 1000000

def is_valid_precision_amount (amount : Nat) : Bool :=
  if amount < PRECISION_FACTOR then false
  else
    let divided := (checkedDivNat amount PRECISION_FACTOR).getD 0
    let multiplied_back := (checkedMul256 divided PRECISION_FACTOR).getD 0
    decide (amount = multiplied_back)

def calculate_payout_amount : Payout → Nat
  | .OneTime stored => stored.data.amount
  | .Recurring stored => stored.data.amount_per_payment
  | .Vested stored =>
      if stored.remaining_periods = 1 then
        stored.data.total_amount - stored.released_amount
      else
        (checkedDivNat stored.data.total_amount stored.original_total_periods).getD 0

def next_recurring_payout (current_block : Nat) (stored : StoredRecurringPayout)
    (new_id : Nat) : StoredRecurringPayout :=
  { data :=
      { to_addr := stored.data.to_addr,
        amount_per_payment := stored.data.amount_per_payment,
        interval_blocks := stored.data.interval_blocks,
        total_payments := stored.remaining_payments - 1,
        start_block := some (satAdd32 current_block stored.data.interval_blocks) },
    id := new_id,
    remaining_payments := stored.remaining_payments - 1,
    created_block := stored.created_block,
    status := .Pending }

def next_vested_payout (current_block : Nat) (stored : StoredVestedPayout)
    (new_id : Nat) (new_released_amount : Nat) : StoredVestedPayout :=
  { data :=
      { to_addr := stored.data.to_addr,
        total_amount := stored.data.total_amount,
        vesting_duration_blocks := stored.data.vesting_duration_blocks,
        vesting_interval_blocks := stored.data.vesting_interval_blocks,
        cliff_block := some (satAdd32 current_block stored.data.vesting_interval_blocks) },
    id := new_id,
    remaining_periods := stored.remaining_periods - 1,
    original_total_periods := stored.original_total_periods,
    created_block := stored.created_block,
    released_amount := new_released_amount,
    status := .Pending }

/-- The repeated storage block that registers a freshly spawned follow-up payout:
push onto `payouts`, append the id to `pending_payout_ids`, record the index in
`payout_index`, bump `pending_count` and `next_payout_id` (both saturating). -/
def add_spawned (t : Treasury) (p : Payout) : Treasury :=
  { t with
      payouts := t.payouts ++ [p],
      pending_payout_ids := t.pending_payout_ids ++ [t.next_payout_id],
      payout_index := ainsert t.payout_index t.next_payout_id t.payouts.length,
      pending_count := satAdd32 t.pending_count 1,
      next_payout_id := satAdd32 t.next_payout_id 1 }

def spawn_followup (current_block : Nat) (t : Treasury) : Payout → Treasury
  | .OneTime _ => t
  | .Recurring stored =>
      if 1 < stored.remaining_payments then
        add_spawned t (.Recurring (next_recurring_payout current_block stored t.next_payout_id))
      else t
  | .Vested stored =>
      let current_payment_amount := calculate_payout_amount (.Vested stored)
      let new_released_amount := satAdd256 stored.released_amount current_payment_amount
      if 1 < stored.remaining_periods ∧ new_released_amount < stored.data.total_amount then
        add_spawned t
          (.Vested (next_vested_payout current_block stored t.next_payout_id new_released_amount))
      else t

/-- The fold step of `handle_processed_payouts` for one settled payout:
spawn the follow-up record (if any), then archive the settled record. -/
def hpp_step (current_block : Nat) (acc : Treasury) (payout : Payout) : Treasury :=
  move_to_processed current_block (spawn_followup current_block acc payout) payout

def handle_processed_payouts (current_block : Nat) (ready_payouts : List Payout)
    (t : Treasury) : Treasury :=
  ready_payouts.foldl (hpp_step current_block) t

def remove_loop (processed_ids : List Nat) :
    List Nat → List Nat → List (Nat × Nat) → List Nat × List (Nat × Nat)
  | [], acc, index => (acc, index)
  | id :: rest, acc, index =>
      if listHas processed_ids id then
        remove_loop processed_ids rest acc (aremove index id)
      else
        remove_loop processed_ids rest (acc ++ [id]) index

def remove_processed_ids (processed_ids : List Nat) (t : Treasury) : Treasury :=
  let res := remove_loop processed_ids t.pending_payout_ids [] t.payout_index
  { t with pending_payout_ids := res.1, payout_index := res.2 }

def select_ready (current_block : Nat) (t : Treasury) : List Payout :=
  (t.pending_payout_ids.filterMap (fun id => get_payout_by_id t id)).filter
    (fun p => decide (payoutStatus p = .Pending) && is_ready current_block p)

def run_transfers (env : Env) : List Payout → Nat → Option (List Nat)
  | [], _ => some []
  | payout :: rest, k =>
      let amount := calculate_payout_amount payout
      if env.transfer_ok k (payoutTo payout) amount then
        match run_transfers env rest (k + 1) with
        | some ids => some (payoutId payout :: ids)
        | none => none
      else none

def process_payouts (env : Env) (t : Treasury) :
    Treasury × Except Error (List Nat × Nat) :=
  if t.is_processing then (t, .error .Reentrancy)
  else
    let t1 := { t with is_processing := true }
    let ready_payouts := select_ready env.block_number t1
    let total_amount :=
      ready_payouts.foldl (fun acc p => satAdd256 acc (calculate_payout_amount p)) 0
    match run_transfers env ready_payouts 0 with
    | none => ({ t1 with is_processing := false }, .error .InsufficientBalance)
    | some processed_ids =>
        let t2 := handle_processed_payouts env.block_number ready_payouts t1
        let t3 := remove_processed_ids processed_ids t2
        let t4 := { t3 with pending_count := t3.pending_count - processed_ids.length }
        ({ t4 with is_processing := false }, .ok (processed_ids, total_amount))

def cancel_payout (env : Env) (t : Treasury) (payout_id : Nat) :
    Treasury × Except Error Unit :=
  if env.caller ≠ t.owner then (t, .error .NotOwner)
  else
    match get_payout_by_id t payout_id with
    | some payout =>
        if payoutStatus payout ≠ .Pending then (t, .error .PayoutNotFound)
        else
          let payout' := set_status_cancelled env.block_number payout
          let t1 :=
            { t with
                archived_payouts := ainsert t.archived_payouts payout_id payout',
                processed_payout_ids := t.processed_payout_ids ++ [payout_id] }
          let t2 := remove_processed_ids [payout_id] t1
          ({ t2 with pending_count := t2.pending_count - 1 }, .ok ())
    | none => (t, .error .PayoutNotFound)

def add_payout_internal (env : Env) (t : Treasury) (payout : Payout) :
    Treasury × Except Error Nat :=
  if env.caller ≠ t.owner then (t, .error .NotOwner)
  else
    let payout_id := (get_payout_info payout).1
    let amount :=
      match payout with
      | .OneTime stored => stored.data.amount
      | .Recurring stored => stored.data.amount_per_payment
      | .Vested stored => stored.data.total_amount
    if is_valid_precision_amount amount then
      let t1 :=
        { t with
            payouts := t.payouts ++ [payout],
            pending_payout_ids := t.pending_payout_ids ++ [payout_id],
            payout_index := ainsert t.payout_index payout_id t.payouts.length,
            pending_count := satAdd32 t.pending_count 1 }
      ({ t1 with next_payout_id := satAdd32 t1.next_payout_id 1 }, .ok payout_id)
    else (t, .error .PrecisionLoss)

def add_payout (env : Env) (t : Treasury) (to_addr amount : Nat)
    (scheduled_block : Option Nat) : Treasury × Except Error Nat :=
  let id := t.next_payout_id
  add_payout_internal env t
    (.OneTime
      { data := { to_addr := to_addr, amount := amount, scheduled_block := scheduled_block },
        id := id,
        created_block := env.block_number,
        status := .Pending })

def add_recurring_payout (env : Env) (t : Treasury) (to_addr amount_per_payment : Nat)
    (start_block : Option Nat) (interval_blocks total_payments : Nat) :
    Treasury × Except Error Nat :=
  let id := t.next_payout_id
  add_payout_internal env t
    (.Recurring
      { data :=
          { to_addr := to_addr,
            amount_per_payment := amount_per_payment,
            interval_blocks := interval_blocks,
            total_payments := total_payments,
            start_block := start_block },
        id := id,
        remaining_payments := total_payments,
        created_block := env.block_number,
        status := .Pending })

def add_vested_payout (env : Env) (t : Treasury) (to_addr total_amount : Nat)
    (cliff_block : Option Nat) (vesting_duration_blocks vesting_interval_blocks : Nat) :
    Treasury × Except Error Nat :=
  let total_periods :=
    (checkedDivNat vesting_duration_blocks vesting_interval_blocks).getD 0
  if total_periods = 0 then (t, .error .InvalidFrequency)
  else
    let id := t.next_payout_id
    add_payout_internal env t
      (.Vested
        { data :=
            { to_addr := to_addr,
              total_amount := total_amount,
              vesting_duration_blocks := vesting_duration_blocks,
              vesting_interval_blocks := vesting_interval_blocks,
              cliff_block := cliff_block },
          id := id,
          remaining_periods := total_periods,
          original_total_periods := total_periods,
          created_block := env.block_number,
          released_amount := 0,
          status := .Pending })

/-- The full lifecycle of one vested schedule, driven by the amount computation
`calculate_payout_amount` and the follow-up construction `next_vested_payout` /
spawn condition of `handle_processed_payouts`: each settlement pays the computed
amount, and a successor installment exists exactly when `remaining_periods > 1`
and the accumulated released amount is still below the total.  `blockAt` gives
the block at which each installment settles (it only influences the successor's
cliff block, never any amount).  The fuel argument bounds the number of
installments; `remaining_periods` decreases by one per spawned successor. -/
def vested_chain (blockAt : Nat → Nat) : Nat → StoredVestedPayout → List Nat
  | 0, _ => []
  | fuel + 1, stored =>
      let pay := calculate_payout_amount (.Vested stored)
      let new_released_amount := satAdd256 stored.released_amount pay
      if 1 < stored.remaining_periods ∧ new_released_amount < stored.data.total_amount then
        pay ::
          vested_chain blockAt fuel
            (next_vested_payout (blockAt fuel) stored 0 new_released_amount)
      else [pay]

/-- The operation surface of the consolidated contract that mutates payout
records: the three submit operations, single cancellation, and settlement. -/
inductive Op where
  | addOneTime (to_addr amount : Nat) (scheduled_block : Option Nat)
  | addRecurring (to_addr amount_per_payment : Nat) (start_block : Option Nat)
      (interval_blocks total_payments : Nat)
  | addVested (to_addr total_amount : Nat) (cliff_block : Option Nat)
      (vesting_duration_blocks vesting_interval_blocks : Nat)
  | cancel (payout_id : Nat)
  | processOp

def apply_op (env : Env) (t : Treasury) : Op → Treasury
  | .addOneTime to_addr amount sb => (add_payout env t to_addr amount sb).1
  | .addRecurring to_addr app sb ib tp => (add_recurring_payout env t to_addr app sb ib tp).1
  | .addVested to_addr ta cb vd vi => (add_vested_payout env t to_addr ta cb vd vi).1
  | .cancel payout_id => (cancel_payout env t payout_id).1
  | .processOp => (process_payouts env t).1

def run_ops : List (Env × Op) → Treasury → Treasury
  | [], t => t
  | (env, op) :: rest, t => run_ops rest (apply_op env t op)

/-- Budget condition under which an operation cannot saturate the `u32` id
counter: submissions need one fresh id, a settlement call needs at most one
fresh id per selected payout. -/
def op_budget (env : Env) (t : Treasury) : Op → Prop
  | .cancel _ => True
  | .processOp => t.next_payout_id + (select_ready env.block_number t).length ≤ u32Max
  | _ => t.next_payout_id < u32Max

def steps_ok : List (Env × Op) → Treasury → Prop
  | [], _ => True
  | (env, op) :: rest, t => op_budget env t op ∧ steps_ok rest (apply_op env t op)

/-- State invariant of the consolidated treasury: archived records are terminal
and keyed by their own id; archived ids have no live index entry; archived and
indexed ids are below the id counter; every index entry points at a stored
payout carrying that id; every indexed id is listed in `pending_payout_ids`. -/
def Inv (t : Treasury) : Prop :=
  (∀ e ∈ t.archived_payouts, isTerminal (payoutStatus e.2) = true ∧ payoutId e.2 = e.1) ∧
  (∀ e ∈ t.archived_payouts, alookup t.payout_index e.1 = none) ∧
  (∀ e ∈ t.archived_payouts, e.1 < t.next_payout_id) ∧
  (∀ e ∈ t.payout_index, e.1 < t.next_payout_id) ∧
  (∀ e ∈ t.payout_index, ∃ p, t.payouts[e.2]? = some p ∧ payoutId p = e.1) ∧
  (∀ e ∈ t.payout_index, e.1 ∈ t.pending_payout_ids) ∧
  t.next_payout_id ≤ u32Max

/-- Intermediate invariant maintained while `handle_processed_payouts` folds
over the selected batch: `t0` is the pre-call state, `R` the selected batch.
Archived ids either have no live index entry or are batch ids whose index
entries are removed by `remove_processed_ids` at the end of the call. -/
def HppInv (t0 : Treasury) (R : List Payout) (t' : Treasury) : Prop :=
  (∀ e ∈ t'.archived_payouts, isTerminal (payoutStatus e.2) = true ∧ payoutId e.2 = e.1) ∧
  (∀ e ∈ t'.archived_payouts,
      alookup t'.payout_index e.1 = none ∨
        (e.1 ∈ t0.pending_payout_ids ∧ e.1 ∈ R.map payoutId)) ∧
  (∀ e ∈ t'.archived_payouts, e.1 < t'.next_payout_id) ∧
  (∀ e ∈ t'.payout_index, e.1 < t'.next_payout_id) ∧
  (∀ e ∈ t'.payout_index, ∃ p, t'.payouts[e.2]? = some p ∧ payoutId p = e.1) ∧
  (∀ e ∈ t'.payout_index, e.1 ∈ t'.pending_payout_ids) ∧
  (∀ x ∈ t0.pending_payout_ids, x ∈ t'.pending_payout_ids) ∧
  t0.next_payout_id ≤ t'.next_payout_id ∧
  t'.next_payout_id ≤ u32Max

end ContractTreasury

namespace ContractTreasuryV5

inductive PayoutType where
  | OneTime
  | Recurring
  | Vested
deriving DecidableEq

inductive PayoutStatus where
  | Pending
  | Active
  | Completed
  | Cancelled
deriving DecidableEq

structure Payout where
  id : Nat
  to_addr : Nat
  amount : Nat
  block_number : Nat
  approvals : List Nat
  payout_type : PayoutType
  status : PayoutStatus
  interval_blocks : Nat
  total_payouts : Nat
  completed_payouts : Nat
  cliff_blocks : Nat
  cancellation_approvals : List Nat
deriving DecidableEq

structure Threshold where
  min_amount : Nat
  max_amount : Nat
  required_approvals : Nat
deriving DecidableEq

inductive Error where
  | NotOwner
  | NotTreasurer
  | InsufficientBalance
  | InvalidFrequency
  | TooEarlyToProcess
  | TreasurerExists
  | PayoutNotFound
  | Reentrancy
deriving DecidableEq

/-- Environment of one v5 contract call; `balance` is the contract balance read
at the start of `add_payout_internal`, `transfer_ok` models the fallible native
transfer (indexed by attempt number within the call, recipient, amount). -/
structure Env where
  caller : Nat
  balance : Nat
  block_number : Nat
  transfer_ok : Nat → Nat → Nat → Bool

structure Treasury where
  owner : Nat
  treasurers : List Nat
  pending_payouts : List Payout
  past_payouts : List Payout
  registered_assets : List Nat
  thresholds : List Threshold
  processing : Bool
deriving DecidableEq

def MAX_PAST_PAYOUTS : Nat := 1000

def default_thresholds : List Threshold :=
  [{ min_amount := 0, max_amount := 500000000000, required_approvals := 1 },
   { min_amount := 500000000000, max_amount := 2500000000000, required_approvals := 2 },
   { min_amount := 2500000000000, max_amount := u128Max, required_approvals := 3 }]

def Treasury.new (caller : Nat) : Treasury :=
  { owner := caller,
    treasurers := [],
    pending_payouts := [],
    past_payouts := [],
    registered_assets := [],
    thresholds := default_thresholds,
    processing := false }

def add_treasurer (env : Env) (t : Treasury) (treasurer : Nat) :
    Treasury × Except Error Unit :=
  if env.caller ≠ t.owner then (t, .error .NotOwner)
  else if listHas t.treasurers treasurer then (t, .error .TreasurerExists)
  else ({ t with treasurers := t.treasurers ++ [treasurer] }, .ok ())

def threshold_matches (amount : Nat) (th : Threshold) : Bool :=
  decide (th.min_amount ≤ amount) && decide (amount ≤ th.max_amount)

def treasurer_clamp (t : Treasury) : Nat :=
  if t.treasurers.length ≤ u32Max then t.treasurers.length else u32Max

def get_required_approvals (t : Treasury) (amount : Nat) : Nat :=
  min (((t.thresholds.find? (threshold_matches amount)).map Threshold.required_approvals).getD 1)
    (treasurer_clamp t)

def add_payout_internal (env : Env) (t : Treasury) (to_addr amount : Nat)
    (payout_type : PayoutType) (interval_blocks total_payouts cliff_blocks : Nat) :
    Treasury × Except Error Nat :=
  if ! listHas t.treasurers env.caller then (t, .error .NotTreasurer)
  else if env.balance < amount then (t, .error .InsufficientBalance)
  else
    let t1 :=
      if MAX_PAST_PAYOUTS ≤ t.past_payouts.length then
        { t with past_payouts := t.past_payouts.drop 1 }
      else t
    let payout_id :=
      if t1.pending_payouts.length ≤ u32Max then satAdd32 t1.pending_payouts.length 1 else 1
    let payout : Payout :=
      { id := payout_id,
        to_addr := to_addr,
        amount := amount,
        block_number := env.block_number,
        approvals := [env.caller],
        payout_type := payout_type,
        status := .Pending,
        interval_blocks := interval_blocks,
        total_payouts := total_payouts,
        completed_payouts := 0,
        cliff_blocks := cliff_blocks,
        cancellation_approvals := [] }
    ({ t1 with pending_payouts := t1.pending_payouts ++ [payout] }, .ok payout_id)

def add_payout (env : Env) (t : Treasury) (to_addr amount : Nat) :
    Treasury × Except Error Nat :=
  add_payout_internal env t to_addr amount .OneTime 0 0 0

def add_recurring_payout (env : Env) (t : Treasury) (to_addr amount : Nat)
    (interval_blocks total_payouts : Nat) : Treasury × Except Error Nat :=
  add_payout_internal env t to_addr amount .Recurring interval_blocks total_payouts 0

def add_vested_payout (env : Env) (t : Treasury) (to_addr amount : Nat)
    (interval_blocks total_payouts cliff_blocks : Nat) : Treasury × Except Error Nat :=
  add_payout_internal env t to_addr amount .Vested interval_blocks total_payouts cliff_blocks

/-- The readiness check inlined in `process_pending_payouts` of the v5 contract. -/
def is_ready (current_block : Nat) (payout : Payout) : Bool :=
  match payout.payout_type with
  | .OneTime => true
  | .Recurring =>
      let next_payout_block :=
        (checkedAdd32 payout.block_number
          ((checkedMul32 payout.completed_payouts payout.interval_blocks).getD 0)).getD 0
      decide (next_payout_block ≤ current_block)
  | .Vested =>
      let cliff_block := (checkedAdd32 payout.block_number payout.cliff_blocks).getD 0
      let next_payout_block :=
        (checkedAdd32 payout.block_number
          ((checkedMul32 payout.completed_payouts payout.interval_blocks).getD 0)).getD 0
      decide (cliff_block ≤ current_block) && decide (next_payout_block ≤ current_block)

def process_loop (env : Env) (t : Treasury) :
    List Payout → List Payout → List Payout → Nat → List Payout × List Payout
  | [], processed, remaining, _ => (processed, remaining)
  | payout :: rest, processed, remaining, k =>
      let required_approvals := get_required_approvals t payout.amount
      if payout.approvals.length < required_approvals then
        process_loop env t rest processed (remaining ++ [payout]) k
      else if is_ready env.block_number payout then
        let processed_payout :=
          { payout with
              status := PayoutStatus.Completed,
              completed_payouts := (checkedAdd32 payout.completed_payouts 1).getD 0 }
        if env.transfer_ok k payout.to_addr payout.amount then
          if (processed_payout.payout_type = PayoutType.Recurring ∨
              processed_payout.payout_type = PayoutType.Vested) ∧
              processed_payout.completed_payouts < processed_payout.total_payouts then
            process_loop env t rest processed
              (remaining ++ [{ processed_payout with status := PayoutStatus.Active }]) (k + 1)
          else
            process_loop env t rest (processed ++ [processed_payout]) remaining (k + 1)
        else
          process_loop env t rest processed (remaining ++ [payout]) (k + 1)
      else
        process_loop env t rest processed (remaining ++ [payout]) k

def push_past (past : List Payout) (payout : Payout) : List Payout :=
  (if MAX_PAST_PAYOUTS ≤ past.length then past.drop 1 else past) ++ [payout]

def process_pending_payouts (env : Env) (t : Treasury) : Treasury × Except Error Unit :=
  if t.processing then (t, .error .Reentrancy)
  else
    let t1 := { t with processing := true }
    let res := process_loop env t1 t1.pending_payouts [] [] 0
    let t2 := { t1 with pending_payouts := res.2 }
    let t3 := { t2 with past_payouts := res.1.foldl push_past t2.past_payouts }
    ({ t3 with processing := false }, .ok ())

def cancel_payout (env : Env) (t : Treasury) (payout_id : Nat) :
    Treasury × Except Error Unit :=
  if ! listHas t.treasurers env.caller then (t, .error .NotTreasurer)
  else
    match t.pending_payouts.findIdx? (fun p => decide (p.id = payout_id)) with
    | none => (t, .error .PayoutNotFound)
    | some index =>
        match t.pending_payouts[index]? with
        | none => (t, .error .PayoutNotFound)
        | some payout =>
            let required_approvals := get_required_approvals t payout.amount
            let payout' :=
              if listHas payout.cancellation_approvals env.caller then payout
              else
                { payout with
                    cancellation_approvals := payout.cancellation_approvals ++ [env.caller] }
            if required_approvals ≤ payout'.cancellation_approvals.length then
              ({ t with pending_payouts := t.pending_payouts.eraseIdx index }, .ok ())
            else
              ({ t with pending_payouts := t.pending_payouts.set index payout' }, .ok ())

/-- Environment with ample balance and an always-succeeding transfer primitive,
used for the concrete id-collision scenario. -/
def c5_env (caller : Nat) : Env :=
  { caller := caller,
    balance := 1000000000000,
    block_number := 0,
    transfer_ok := fun _ _ _ => true }

def c5_state1 : Treasury := (add_treasurer (c5_env 0) (Treasury.new 0) 1).1

def c5_state2 : Treasury := (add_payout (c5_env 1) c5_state1 7 1000000).1

def c5_state3 : Treasury := (add_payout (c5_env 1) c5_state2 8 2000000).1

def c5_state4 : Treasury := (cancel_payout (c5_env 1) c5_state3 1).1

def c5_state5 : Treasury := (add_payout (c5_env 1) c5_state4 9 3000000).1

end ContractTreasuryV5

namespace ContractTreasuryV6

inductive PayoutType where
  | OneTime
  | Recurring
  | Vested
deriving DecidableEq

inductive PayoutStatus where
  | Pending
  | Active
  | Completed
  | Cancelled
deriving DecidableEq

structure Payout where
  id : Nat
  to_addr : Nat
  amount : Nat
  block_number : Nat
  approvals : List Nat
  payout_type : PayoutType
  status : PayoutStatus
  interval_blocks : Nat
  total_payouts : Nat
  completed_payouts : Nat
  cliff_blocks : Nat
  cancellation_approvals : List Nat
deriving DecidableEq

structure Threshold where
  min_amount : Nat
  max_amount : Nat
  required_approvals : Nat
deriving DecidableEq

inductive Error where
  | NotOwner
  | NotTreasurer
  | InsufficientBalance
  | InvalidFrequency
  | TooEarlyToProcess
  | TreasurerExists
  | PayoutNotFound
  | Reentrancy
deriving DecidableEq

structure Env where
  caller : Nat
  block_number : Nat
  transfer_ok : Nat → Nat → Nat → Bool

structure Treasury where
  owner : Nat
  treasurers : List Nat
  pending_payouts : List Payout
  past_payouts : List (Nat × Payout)
  past_payout_ids : List Nat
  thresholds : List Threshold
  processing : Bool
  next_payout_id : Nat
deriving DecidableEq

def MAX_APPROVALS : Nat := 10

def default_thresholds : List Threshold :=
  [{ min_amount := 0, max_amount := 500000000000, required_approvals := 1 },
   { min_amount := 500000000000, max_amount := 2500000000000, required_approvals := 2 },
   { min_amount := 2500000000000, max_amount := U256Max, required_approvals := 3 }]

def Treasury.new (caller : Nat) (initial_treasurers : List Nat) : Treasury :=
  { owner := caller,
    treasurers := initial_treasurers.foldl (fun s x => if listHas s x then s else s ++ [x]) [],
    pending_payouts := [],
    past_payouts := [],
    past_payout_ids := [],
    thresholds := default_thresholds,
    processing := false,
    next_payout_id := 1 }

def threshold_matches (amount : Nat) (th : Threshold) : Bool :=
  decide (th.min_amount ≤ amount) && decide (amount ≤ th.max_amount)

def treasurer_clamp (t : Treasury) : Nat :=
  if t.treasurers.length ≤ u32Max then t.treasurers.length else u32Max

def get_required_approvals (t : Treasury) (amount : Nat) : Nat :=
  min (((t.thresholds.find? (threshold_matches amount)).map Threshold.required_approvals).getD 1)
    (treasurer_clamp t)

def add_payout_internal (env : Env) (t : Treasury) (to_addr amount : Nat)
    (payout_type : PayoutType) (interval_blocks total_payouts cliff_blocks : Nat) :
    Treasury × Except Error Nat :=
  if ! listHas t.treasurers env.caller then (t, .error .NotTreasurer)
  else
    let payout_id := t.next_payout_id
    let t1 := { t with next_payout_id := (checkedAdd32 t.next_payout_id 1).getD 1 }
    let payout : Payout :=
      { id := payout_id,
        to_addr := to_addr,
        amount := amount,
        block_number := env.block_number,
        approvals := [env.caller],
        payout_type := payout_type,
        status := .Pending,
        interval_blocks := interval_blocks,
        total_payouts := total_payouts,
        completed_payouts := 0,
        cliff_blocks := cliff_blocks,
        cancellation_approvals := [] }
    ({ t1 with pending_payouts := t1.pending_payouts ++ [payout] }, .ok payout_id)

def add_payout (env : Env) (t : Treasury) (to_addr amount : Nat) :
    Treasury × Except Error Nat :=
  add_payout_internal env t to_addr amount .OneTime 0 0 0

/-- The readiness check inlined in `process_pending_payouts` of the v6 contract. -/
def is_ready (current_block : Nat) (payout : Payout) : Bool :=
  match payout.payout_type with
  | .OneTime => true
  | .Recurring =>
      let next_payout_block :=
        (checkedAdd32 payout.block_number
          ((checkedMul32 payout.completed_payouts payout.interval_blocks).getD 0)).getD 0
      decide (next_payout_block ≤ current_block)
  | .Vested =>
      let cliff_block := (checkedAdd32 payout.block_number payout.cliff_blocks).getD 0
      let next_payout_block :=
        (checkedAdd32 payout.block_number
          ((checkedMul32 payout.completed_payouts payout.interval_blocks).getD 0)).getD 0
      decide (cliff_block ≤ current_block) && decide (next_payout_block ≤ current_block)

def process_loop (env : Env) (t : Treasury) :
    List Payout → List Payout → List Payout → Nat → List Payout × List Payout
  | [], processed, remaining, _ => (processed, remaining)
  | payout :: rest, processed, remaining, k =>
      let required_approvals := get_required_approvals t payout.amount
      if payout.approvals.length < required_approvals then
        process_loop env t rest processed (remaining ++ [payout]) k
      else if is_ready env.block_number payout then
        let processed_payout :=
          { payout with
              status := PayoutStatus.Completed,
              completed_payouts := (checkedAdd32 payout.completed_payouts 1).getD 0 }
        if env.transfer_ok k payout.to_addr payout.amount then
          if (processed_payout.payout_type = PayoutType.Recurring ∨
              processed_payout.payout_type = PayoutType.Vested) ∧
              processed_payout.completed_payouts < processed_payout.total_payouts then
            process_loop env t rest processed
              (remaining ++ [{ processed_payout with status := PayoutStatus.Active }]) (k + 1)
          else
            process_loop env t rest (processed ++ [processed_payout]) remaining (k + 1)
        else
          process_loop env t rest processed (remaining ++ [payout]) (k + 1)
      else
        process_loop env t rest processed (remaining ++ [payout]) k

def process_pending_payouts (env : Env) (t : Treasury) : Treasury × Except Error Unit :=
  if t.processing then (t, .error .Reentrancy)
  else
    let t1 := { t with processing := true }
    let res := process_loop env t1 t1.pending_payouts [] [] 0
    let t2 := { t1 with pending_payouts := res.2 }
    let t3 :=
      res.1.foldl
        (fun acc payout =>
          { acc with
              past_payouts := ainsert acc.past_payouts payout.id payout,
              past_payout_ids := acc.past_payout_ids ++ [payout.id] })
        t2
    ({ t3 with processing := false }, .ok ())

def cancel_payout (env : Env) (t : Treasury) (payout_id : Nat) :
    Treasury × Except Error Unit :=
  if ! listHas t.treasurers env.caller then (t, .error .NotTreasurer)
  else
    match t.pending_payouts.findIdx? (fun p => decide (p.id = payout_id)) with
    | none => (t, .error .PayoutNotFound)
    | some index =>
        match t.pending_payouts[index]? with
        | none => (t, .error .PayoutNotFound)
        | some payout =>
            let required_approvals := get_required_approvals t payout.amount
            let payout' :=
              if listHas payout.cancellation_approvals env.caller then payout
              else
                { payout with
                    cancellation_approvals := payout.cancellation_approvals ++ [env.caller] }
            if required_approvals ≤ payout'.cancellation_approvals.length then
              ({ t with pending_payouts := t.pending_payouts.eraseIdx index }, .ok ())
            else
              ({ t with pending_payouts := t.pending_payouts.set index payout' }, .ok ())

/-- A pending one-time payout carrying one approval and no cancellation
approvals, used in concrete counterexamples and witnesses. -/
def sample_payout (pid to_addr amount : Nat) (approver : Nat) : Payout :=
  { id := pid,
    to_addr := to_addr,
    amount := amount,
    block_number := 0,
    approvals := [approver],
    payout_type := .OneTime,
    status := .Pending,
    interval_blocks := 0,
    total_payouts := 0,
    completed_payouts := 0,
    cliff_blocks := 0,
    cancellation_approvals := [] }

/-- Treasury with one treasurer (address 1) and one pending payout of the
minimal precision amount, as produced by `new` followed by `add_payout`. -/
def c8_state : Treasury :=
  (add_payout { caller := 1, block_number := 0, transfer_ok := fun _ _ _ => true }
    (Treasury.new 0 [1]) 7 1000000).1

end ContractTreasuryV6

namespace ContractTreasury

/-- Environment whose transfer primitive always succeeds. -/
def env_ok : Env := { caller := 0, block_number := 0, transfer_ok := fun _ _ _ => true }

/-- Environment whose transfer primitive always fails. -/
def env_fail : Env := { caller := 0, block_number := 0, transfer_ok := fun _ _ _ => false }

/-- A pending unscheduled one-time payout record. -/
def sample_one_time (pid amount : Nat) : Payout :=
  .OneTime
    { data := { to_addr := 5, amount := amount, scheduled_block := none },
      id := pid,
      created_block := 0,
      status := .Pending }

/-- Treasury holding exactly one pending, immediately-ready one-time payout,
as produced by `add_payout` on a fresh treasury. -/
def t_one_pending : Treasury :=
  { owner := 0,
    pending_payout_ids := [0],
    payouts := [sample_one_time 0 1000000],
    processed_payout_ids := [],
    archived_payouts := [],
    payout_index := [(0, 0)],
    is_processing := false,
    next_payout_id := 1,
    pending_count := 1 }

/-- Treasury whose only record is an archived, completed one-time payout, as
left behind by `add_payout` followed by a successful `process_payouts`. -/
def t_archived : Treasury :=
  { owner := 0,
    pending_payout_ids := [],
    payouts := [sample_one_time 0 1000000],
    processed_payout_ids := [0],
    archived_payouts :=
      [(0, .OneTime
            { data := { to_addr := 5, amount := 1000000, scheduled_block := none },
              id := 0,
              created_block := 0,
              status := .Completed 0 })],
    payout_index := [],
    is_processing := false,
    next_payout_id := 1,
    pending_count := 0 }

/-- Saturated-counter configuration: the id counter has reached `u32::MAX`
(where `saturating_add` pins it after 2^32 - 2 submissions), the record minted
with id `u32::MAX` has already been settled and archived, and nothing is
pending. -/
def t_saturated : Treasury :=
  { owner := 0,
    pending_payout_ids := [],
    payouts := [sample_one_time u32Max 1000000],
    processed_payout_ids := [u32Max],
    archived_payouts :=
      [(u32Max, .OneTime
            { data := { to_addr := 5, amount := 1000000, scheduled_block := none },
              id := u32Max,
              created_block := 0,
              status := .Completed 0 })],
    payout_index := [],
    is_processing := false,
    next_payout_id := u32Max,
    pending_count := 0 }

/-- The initial stored record of a vested payout of 100,000,000 over 7
installments (duration 70, interval 10), exactly as `add_vested_payout`
creates it. -/
def c1_sample : StoredVestedPayout :=
  { data :=
      { to_addr := 5,
        total_amount := 100000000,
        vesting_duration_blocks := 70,
        vesting_interval_blocks := 10,
        cliff_block := some 10 },
    id := 0,
    remaining_periods := 7,
    original_total_periods := 7,
    created_block := 0,
    released_amount := 0,
    status := .Pending }

end ContractTreasury

namespace ContractTreasuryV5

/-- A vested payout with a cliff 10 blocks after creation and 5-block
intervals, no installment settled yet. -/
def c7_vested_payout : Payout :=
  { id := 1,
    to_addr := 7,
    amount := 1000000,
    block_number := 0,
    approvals := [1],
    payout_type := .Vested,
    status := .Pending,
    interval_blocks := 5,
    total_payouts := 3,
    completed_payouts := 0,
    cliff_blocks := 10,
    cancellation_approvals := [] }

/-- Environment of a v5 call made at block 1 by the sole treasurer, with ample
contract balance. -/
def c7_env : Env :=
  { caller := 1,
    balance := 1000000000000,
    block_number := 1,
    transfer_ok := fun _ _ _ => true }

/-- The vested record stored when, at block 1, the sole treasurer submits a
vested payout whose cliff offset is the full `u32` range: its nominal cliff
`block_number + cliff_blocks` exceeds `u32::MAX`. -/
def c7_overflow_payout : Payout :=
  { id := 1,
    to_addr := 7,
    amount := 1000000,
    block_number := 1,
    approvals := [1],
    payout_type := .Vested,
    status := .Pending,
    interval_blocks := 5,
    total_payouts := 3,
    completed_payouts := 0,
    cliff_blocks := u32Max,
    cancellation_approvals := [] }

end ContractTreasuryV5

namespace ContractTreasuryV6

def c8_env : Env := { caller := 1, block_number := 5, transfer_ok := fun _ _ _ => true }

end ContractTreasuryV6

/-! Generic lemmas about the list and association-list helpers. -/

theorem listHas_iff_mem {l : List Nat} {x : Nat} : listHas l x = true ↔ x ∈ l := by
  induction l with
  | nil => simp [listHas]
  | cons y rest ih =>
      simp only [listHas, List.mem_cons]
      by_cases h : y = x
      · subst h; simp
      · simp only [if_neg h, ih]
        constructor
        · exact fun hm => Or.inr hm
        · rintro (rfl | hm)
          · exact absurd rfl h
          · exact hm

theorem listHas_eq_false_iff {l : List Nat} {x : Nat} : listHas l x = false ↔ x ∉ l := by
  rw [← listHas_iff_mem]
  cases listHas l x <;> simp

theorem alookup_mem {α : Type} {l : List (Nat × α)} {k : Nat} {v : α}
    (h : alookup l k = some v) : (k, v) ∈ l := by
  induction l with
  | nil => simp [alookup] at h
  | cons e rest ih =>
      obtain ⟨a, b⟩ := e
      by_cases he : a = k
      · subst he
        simp only [alookup, if_pos rfl] at h
        cases h
        exact List.mem_cons_self _ _
      · simp only [alookup, if_neg he] at h
        exact List.mem_cons_of_mem _ (ih h)

theorem alookup_eq_none_iff {α : Type} {l : List (Nat × α)} {k : Nat} :
    alookup l k = none ↔ ∀ e ∈ l, e.1 ≠ k := by
  induction l with
  | nil => simp [alookup]
  | cons e rest ih =>
      by_cases he : e.1 = k
      · simp [alookup, he]
      · simp [alookup, he, ih]

theorem alookup_ainsert_self {α : Type} {l : List (Nat × α)} {k : Nat} {v : α} :
    alookup (ainsert l k v) k = some v := by
  induction l with
  | nil => simp [ainsert, alookup]
  | cons e rest ih =>
      by_cases he : e.1 = k
      · simp [ainsert, he, alookup]
      · simp [ainsert, he, alookup, ih]

theorem alookup_ainsert_ne {α : Type} {l : List (Nat × α)} {k k2 : Nat} {v : α}
    (h : k2 ≠ k) : alookup (ainsert l k2 v) k = alookup l k := by
  induction l with
  | nil => simp [ainsert, alookup, h]
  | cons e rest ih =>
      by_cases he : e.1 = k2
      · have h1 : e.1 ≠ k := fun hk => h (he.symm.trans hk)
        simp only [ainsert, if_pos he, alookup, if_neg h, if_neg h1]
      · simp only [ainsert, if_neg he, alookup, ih]

theorem mem_ainsert {α : Type} {l : List (Nat × α)} {k : Nat} {v : α} {e : Nat × α}
    (h : e ∈ ainsert l k v) : e ∈ l ∨ e = (k, v) := by
  induction l with
  | nil => simp [ainsert] at h; exact Or.inr h
  | cons e2 rest ih =>
      by_cases he : e2.1 = k
      · rw [ainsert, if_pos he] at h
        rcases List.mem_cons.mp h with h1 | h1
        · exact Or.inr h1
        · exact Or.inl (List.mem_cons_of_mem _ h1)
      · rw [ainsert, if_neg he] at h
        rcases List.mem_cons.mp h with h1 | h1
        · exact Or.inl (h1 ▸ List.mem_cons_self _ _)
        · rcases ih h1 with h2 | h2
          · exact Or.inl (List.mem_cons_of_mem _ h2)
          · exact Or.inr h2

theorem mem_aremove {α : Type} {l : List (Nat × α)} {k : Nat} {e : Nat × α}
    (h : e ∈ aremove l k) : e ∈ l := by
  induction l with
  | nil => simp [aremove] at h
  | cons e2 rest ih =>
      by_cases he : e2.1 = k
      · rw [aremove, if_pos he] at h
        exact List.mem_cons_of_mem _ (ih h)
      · rw [aremove, if_neg he] at h
        rcases List.mem_cons.mp h with h1 | h1
        · exact h1 ▸ List.mem_cons_self _ _
        · exact List.mem_cons_of_mem _ (ih h1)

theorem alookup_aremove_self {α : Type} {l : List (Nat × α)} {k : Nat} :
    alookup (aremove l k) k = none := by
  rw [alookup_eq_none_iff]
  intro e he
  induction l with
  | nil => simp [aremove] at he
  | cons e2 rest ih =>
      by_cases h2 : e2.1 = k
      · rw [aremove, if_pos h2] at he
        exact ih he
      · rw [aremove, if_neg h2] at he
        rcases List.mem_cons.mp he with h1 | h1
        · exact h1 ▸ h2
        · exact ih h1

theorem getElem?_append_of_some {α : Type} :
    ∀ {l : List α} {l2 : List α} {i : Nat} {x : α}, l[i]? = some x → (l ++ l2)[i]? = some x := by
  intro l
  induction l with
  | nil => intro l2 i x h; simp at h
  | cons a rest ih =>
      intro l2 i x h
      cases i with
      | zero => simpa using h
      | succ n =>
          simp only [List.cons_append, List.getElem?_cons_succ] at h ⊢
          exact ih h

theorem findIdx_none_of_forall {α : Type} (q : α → Bool) :
    ∀ l : List α, (∀ x ∈ l, q x = false) → l.findIdx? q = none := by
  intro l
  induction l with
  | nil => intro _; rfl
  | cons a rest ih =>
      intro h
      have ha := h a (List.mem_cons_self _ _)
      simp [List.findIdx?, ha, ih (fun x hx => h x (List.mem_cons_of_mem _ hx))]

/-! Claim C4: the amount validator. -/

/-- Claim C4: for every representable amount `a`, `is_valid_precision_amount a`
is true iff `a ≥ PRECISION_FACTOR` (1,000,000) and `a` is evenly divisible by
`PRECISION_FACTOR`; the function is total (it is a Lean `def`) and returns
`false` on `U256::MAX` instead of overflowing. -/
theorem c4_precision_validator :
    (∀ amount : Nat, amount ≤ U256Max →
      (ContractTreasury.is_valid_precision_amount amount = true ↔
        (ContractTreasury.PRECISION_FACTOR ≤ amount ∧
          amount % ContractTreasury.PRECISION_FACTOR = 0))) ∧
    ContractTreasury.is_valid_precision_amount U256Max = false := by
  constructor
  · intro amount hle
    unfold ContractTreasury.is_valid_precision_amount
    by_cases h : amount < ContractTreasury.PRECISION_FACTOR
    · rw [if_pos h]
      simp only [ContractTreasury.PRECISION_FACTOR] at h ⊢
      constructor
      · intro hf; exact absurd hf (by simp)
      · intro hc; omega
    · rw [if_neg h]
      simp only [ContractTreasury.PRECISION_FACTOR] at h ⊢
      have hdiv : checkedDivNat amount 1000000 = some (amount / 1000000) := by
        simp [checkedDivNat]
      have hmulle : amount / 1000000 * 1000000 ≤ amount := Nat.div_mul_le_self _ _
      have hmul : checkedMul256 (amount / 1000000) 1000000
          = some (amount / 1000000 * 1000000) := by
        simp only [checkedMul256]
        rw [if_pos (le_trans hmulle hle)]
      simp only [hdiv, Option.getD_some, hmul, decide_eq_true_eq]
      omega
  · decide

/-- Witness for C4 at the minimal valid amount. -/
theorem c4_precision_validator_witness :
    ContractTreasury.is_valid_precision_amount 1000000 = true :=
  (c4_precision_validator.1 1000000 (by decide)).mpr (by decide)

/-! Claim C3: the reentrancy guard. -/

/-- Claim C3: whenever the processing latch is set, the settlement operation
(`process_payouts` in the consolidated contract, `process_pending_payouts` in
v6) returns the `Reentrancy` error and returns the state entirely unchanged. -/
theorem c3_reentrancy_guard :
    (∀ (env : ContractTreasury.Env) (t : ContractTreasury.Treasury),
        t.is_processing = true →
        ContractTreasury.process_payouts env t = (t, .error .Reentrancy)) ∧
    (∀ (env : ContractTreasuryV6.Env) (t : ContractTreasuryV6.Treasury),
        t.processing = true →
        ContractTreasuryV6.process_pending_payouts env t = (t, .error .Reentrancy)) := by
  constructor
  · intro env t h
    unfold ContractTreasury.process_payouts
    rw [if_pos h]
  · intro env t h
    unfold ContractTreasuryV6.process_pending_payouts
    rw [if_pos h]

/-- Witness for C3 on a concrete latched treasury. -/
theorem c3_reentrancy_guard_witness :
    ContractTreasury.process_payouts ContractTreasury.env_ok
        { ContractTreasury.t_one_pending with is_processing := true } =
      ({ ContractTreasury.t_one_pending with is_processing := true },
        .error .Reentrancy) :=
  c3_reentrancy_guard.1 _ _ rfl

/-! Claim C10: the latch is cleared on every completed settlement call. -/

/-- Claim C10: a settlement call that starts with the latch clear always ends
with the latch clear, on the success path and on the `InsufficientBalance`
abort path alike (consolidated contract), and likewise for every completed v5
`process_pending_payouts` call — so a completed call can never leave the
treasury stuck returning `Reentrancy`. -/
theorem c10_latch_always_released :
    (∀ (env : ContractTreasury.Env) (t : ContractTreasury.Treasury),
        t.is_processing = false →
        (ContractTreasury.process_payouts env t).1.is_processing = false) ∧
    (∀ (env : ContractTreasuryV5.Env) (t : ContractTreasuryV5.Treasury),
        t.processing = false →
        (ContractTreasuryV5.process_pending_payouts env t).1.processing = false) := by
  constructor
  · intro env t h
    unfold ContractTreasury.process_payouts
    rw [if_neg (by simp [h])]
    dsimp only
    split <;> rfl
  · intro env t h
    unfold ContractTreasuryV5.process_pending_payouts
    rw [if_neg (by simp [h])]

/-- Witness for C10 on a concrete treasury with one ready payout. -/
theorem c10_latch_always_released_witness :
    (ContractTreasury.process_payouts ContractTreasury.env_ok
        ContractTreasury.t_one_pending).1.is_processing = false :=
  c10_latch_always_released.1 _ _ rfl

/-! Claim C6: the approval-threshold lookup. -/

/-- Claim C6: in both v6 and v5, `get_required_approvals` returns the
`required_approvals` of the first threshold bracket whose `[min_amount,
max_amount]` range contains the amount (clamped to the treasurer-set size),
falls back to `1` (again clamped) when no bracket matches, and never exceeds
the number of currently registered treasurers. -/
theorem c6_required_approvals :
    (∀ (t : ContractTreasuryV6.Treasury) (amount : Nat),
      ContractTreasuryV6.get_required_approvals t amount ≤ t.treasurers.length ∧
      (∀ th, t.thresholds.find? (ContractTreasuryV6.threshold_matches amount) = some th →
        ContractTreasuryV6.get_required_approvals t amount =
          min th.required_approvals (ContractTreasuryV6.treasurer_clamp t)) ∧
      (t.thresholds.find? (ContractTreasuryV6.threshold_matches amount) = none →
        ContractTreasuryV6.get_required_approvals t amount =
          min 1 (ContractTreasuryV6.treasurer_clamp t))) ∧
    (∀ (t : ContractTreasuryV5.Treasury) (amount : Nat),
      ContractTreasuryV5.get_required_approvals t amount ≤ t.treasurers.length ∧
      (∀ th, t.thresholds.find? (ContractTreasuryV5.threshold_matches amount) = some th →
        ContractTreasuryV5.get_required_approvals t amount =
          min th.required_approvals (ContractTreasuryV5.treasurer_clamp t)) ∧
      (t.thresholds.find? (ContractTreasuryV5.threshold_matches amount) = none →
        ContractTreasuryV5.get_required_approvals t amount =
          min 1 (ContractTreasuryV5.treasurer_clamp t))) := by
  constructor
  · intro t amount
    refine ⟨?_, ?_, ?_⟩
    · unfold ContractTreasuryV6.get_required_approvals ContractTreasuryV6.treasurer_clamp
      by_cases h : t.treasurers.length ≤ u32Max
      · rw [if_pos h]; exact min_le_right _ _
      · rw [if_neg h]
        exact le_trans (min_le_right _ _) (le_of_lt (Nat.lt_of_not_le h))
    · intro th hth
      unfold ContractTreasuryV6.get_required_approvals
      rw [hth]
      rfl
    · intro hnone
      unfold ContractTreasuryV6.get_required_approvals
      rw [hnone]
      rfl
  · intro t amount
    refine ⟨?_, ?_, ?_⟩
    · unfold ContractTreasuryV5.get_required_approvals ContractTreasuryV5.treasurer_clamp
      by_cases h : t.treasurers.length ≤ u32Max
      · rw [if_pos h]; exact min_le_right _ _
      · rw [if_neg h]
        exact le_trans (min_le_right _ _) (le_of_lt (Nat.lt_of_not_le h))
    · intro th hth
      unfold ContractTreasuryV5.get_required_approvals
      rw [hth]
      rfl
    · intro hnone
      unfold ContractTreasuryV5.get_required_approvals
      rw [hnone]
      rfl

/-- Witness for C6 on a concrete treasury with one treasurer, in the bracket
that demands one approval and in the three-approval bracket (clamped to 1). -/
theorem c6_required_approvals_witness :
    ContractTreasuryV6.get_required_approvals (ContractTreasuryV6.Treasury.new 0 [1]) 100 ≤
      (ContractTreasuryV6.Treasury.new 0 [1]).treasurers.length ∧
    ContractTreasuryV6.get_required_approvals (ContractTreasuryV6.Treasury.new 0 [1]) 100 =
      min 1 (ContractTreasuryV6.treasurer_clamp (ContractTreasuryV6.Treasury.new 0 [1])) :=
  ⟨(c6_required_approvals.1 (ContractTreasuryV6.Treasury.new 0 [1]) 100).1,
    (c6_required_approvals.1 (ContractTreasuryV6.Treasury.new 0 [1]) 100).2.1
      { min_amount := 0, max_amount := 500000000000, required_approvals := 1 } (by decide)⟩

/-! Claim C7: the readiness evaluator. -/

/-- Claim C7 (amended): a OneTime payout is ready iff its scheduled block is
absent or reached; a Vested payout in the consolidated contract is ready iff
its cliff block (which for a spawned installment is exactly the next vesting
boundary) is absent or reached. In v5 the cliff and the next vesting boundary
are computed with checked `u32` arithmetic falling back to 0 on overflow, so a
Vested payout there is ready iff the nominal cliff (creation block + cliff
offset) is reached OR overflows `u32` (collapsing the cliff to block 0), AND
the nominal boundary (creation block + completed installments × interval) is
reached OR its computation overflows (an overflowing sum collapses the
boundary to block 0; an overflowing product collapses it to the creation
block). -/
theorem c7_readiness :
    (∀ (cb : Nat) (stored : ContractTreasury.StoredOneTimePayout),
      ContractTreasury.is_ready cb (.OneTime stored) = true ↔
        (stored.data.scheduled_block = none ∨
          ∃ b, stored.data.scheduled_block = some b ∧ b ≤ cb)) ∧
    (∀ (cb : Nat) (stored : ContractTreasury.StoredVestedPayout),
      ContractTreasury.is_ready cb (.Vested stored) = true ↔
        (stored.data.cliff_block = none ∨
          ∃ b, stored.data.cliff_block = some b ∧ b ≤ cb)) ∧
    (∀ (cb : Nat) (p : ContractTreasuryV5.Payout),
      p.payout_type = .Vested →
      p.block_number ≤ u32Max →
      (ContractTreasuryV5.is_ready cb p = true ↔
        ((p.block_number + p.cliff_blocks ≤ cb ∨
            u32Max < p.block_number + p.cliff_blocks) ∧
          ((p.completed_payouts * p.interval_blocks ≤ u32Max ∧
              (p.block_number + p.completed_payouts * p.interval_blocks ≤ cb ∨
                u32Max < p.block_number + p.completed_payouts * p.interval_blocks)) ∨
            (u32Max < p.completed_payouts * p.interval_blocks ∧
              p.block_number ≤ cb))))) := by
  refine ⟨?_, ?_, ?_⟩
  · intro cb stored
    cases hsb : stored.data.scheduled_block with
    | none => simp [ContractTreasury.is_ready, hsb]
    | some b => simp [ContractTreasury.is_ready, hsb]
  · intro cb stored
    cases hsb : stored.data.cliff_block with
    | none => simp [ContractTreasury.is_ready, hsb]
    | some b => simp [ContractTreasury.is_ready, hsb]
  · intro cb p hty hb
    unfold ContractTreasuryV5.is_ready
    rw [hty]
    by_cases h2 : p.completed_payouts * p.interval_blocks ≤ u32Max
    · by_cases h1 : p.block_number + p.cliff_blocks ≤ u32Max
      · by_cases h3 : p.block_number + p.completed_payouts * p.interval_blocks ≤ u32Max
        · simp only [checkedMul32, if_pos h2, Option.getD_some, checkedAdd32, if_pos h1,
            if_pos h3, Bool.and_eq_true, decide_eq_true_eq]
          revert h2 h3
          generalize p.completed_payouts * p.interval_blocks = m
          intro h2 h3
          omega
        · simp only [checkedMul32, if_pos h2, Option.getD_some, checkedAdd32, if_pos h1,
            if_neg h3, Option.getD_none, Bool.and_eq_true, decide_eq_true_eq]
          revert h2 h3
          generalize p.completed_payouts * p.interval_blocks = m
          intro h2 h3
          omega
      · by_cases h3 : p.block_number + p.completed_payouts * p.interval_blocks ≤ u32Max
        · simp only [checkedMul32, if_pos h2, Option.getD_some, checkedAdd32, if_neg h1,
            if_pos h3, Option.getD_none, Bool.and_eq_true, decide_eq_true_eq]
          revert h2 h3
          generalize p.completed_payouts * p.interval_blocks = m
          intro h2 h3
          omega
        · simp only [checkedMul32, if_pos h2, Option.getD_some, checkedAdd32, if_neg h1,
            if_neg h3, Option.getD_none, Bool.and_eq_true, decide_eq_true_eq]
          revert h2 h3
          generalize p.completed_payouts * p.interval_blocks = m
          intro h2 h3
          omega
    · have h4 : p.block_number + 0 ≤ u32Max := by omega
      by_cases h1 : p.block_number + p.cliff_blocks ≤ u32Max
      · simp only [checkedMul32, if_neg h2, Option.getD_none, checkedAdd32, if_pos h4,
          Option.getD_some, if_pos h1, Bool.and_eq_true, decide_eq_true_eq]
        revert h2
        generalize p.completed_payouts * p.interval_blocks = m
        intro h2
        omega
      · simp only [checkedMul32, if_neg h2, Option.getD_none, checkedAdd32, if_pos h4,
          Option.getD_some, if_neg h1, Bool.and_eq_true, decide_eq_true_eq]
        revert h2
        generalize p.completed_payouts * p.interval_blocks = m
        intro h2
        omega

/-- Witness for C7: the overflowing-cliff v5 payout is ready at block 1 via
the overflow disjunct, and the in-range payout with cliff at block 10 is
ready at block 10 via the nominal disjunct. -/
theorem c7_readiness_witness :
    ContractTreasuryV5.is_ready 1 ContractTreasuryV5.c7_overflow_payout = true ∧
    ContractTreasuryV5.is_ready 10 ContractTreasuryV5.c7_vested_payout = true :=
  ⟨(c7_readiness.2.2 1 ContractTreasuryV5.c7_overflow_payout rfl (by decide)).mpr
      (by decide),
    (c7_readiness.2.2 10 ContractTreasuryV5.c7_vested_payout rfl (by decide)).mpr
      (by decide)⟩

/-- Refutation of C7 as frozen for the v5 contract: at block 1 the sole
treasurer submits a vested payout with cliff offset `u32::MAX`, producing a
stored record whose nominal cliff `block_number + cliff_blocks` exceeds
`u32::MAX`; the code's `checked_add(..).unwrap_or(0)` collapses that cliff to
block 0, so the payout is reported ready at block 1 even though its nominal
cliff lies at block 4294967296. -/
theorem c7_readiness_counterexample :
    (ContractTreasuryV5.add_vested_payout ContractTreasuryV5.c7_env
        (ContractTreasuryV5.add_treasurer (ContractTreasuryV5.c5_env 0)
          (ContractTreasuryV5.Treasury.new 0) 1).1
        7 1000000 5 3 u32Max).1.pending_payouts =
      [ContractTreasuryV5.c7_overflow_payout] ∧
    ContractTreasuryV5.is_ready 1 ContractTreasuryV5.c7_overflow_payout = true ∧
    u32Max < ContractTreasuryV5.c7_overflow_payout.block_number +
      ContractTreasuryV5.c7_overflow_payout.cliff_blocks ∧
    ¬ (ContractTreasuryV5.c7_overflow_payout.block_number +
        ContractTreasuryV5.c7_overflow_payout.cliff_blocks ≤ 1) :=
  ⟨rfl, rfl, by decide, by decide⟩

/-! Claim C1: exact conservation of vested schedules. -/

theorem valid_precision_ge {a : Nat}
    (h : ContractTreasury.is_valid_precision_amount a = true) :
    ContractTreasury.PRECISION_FACTOR ≤ a := by
  by_contra hlt
  unfold ContractTreasury.is_valid_precision_amount at h
  rw [if_pos (by omega)] at h
  exact absurd h (by simp)

/-- One-step unfolding of `vested_chain` at positive fuel. -/
theorem vested_chain_succ (blockAt : Nat → Nat) (fuel : Nat)
    (s : ContractTreasury.StoredVestedPayout) :
    ContractTreasury.vested_chain blockAt (fuel + 1) s =
      if 1 < s.remaining_periods ∧
          satAdd256 s.released_amount
              (ContractTreasury.calculate_payout_amount (.Vested s)) <
            s.data.total_amount then
        ContractTreasury.calculate_payout_amount (.Vested s) ::
          ContractTreasury.vested_chain blockAt fuel
            (ContractTreasury.next_vested_payout (blockAt fuel) s 0
              (satAdd256 s.released_amount
                (ContractTreasury.calculate_payout_amount (.Vested s))))
      else [ContractTreasury.calculate_payout_amount (.Vested s)] := rfl

/-- Closed form of the vested installment chain: starting from a record with
`remaining_periods = r`, `original_total_periods = n` and the released amount
accumulated by the `n - r` earlier installments, the chain pays `r - 1`
regular installments of `T / n` followed by the exact remainder. -/
theorem vested_chain_closed_form :
    ∀ (r : Nat) (blockAt : Nat → Nat) (s : ContractTreasury.StoredVestedPayout) (T n : Nat),
      s.data.total_amount = T →
      s.original_total_periods = n →
      s.remaining_periods = r →
      s.released_amount = (n - r) * (T / n) →
      1 ≤ r → r ≤ n → 1 ≤ T → T ≤ U256Max →
      ContractTreasury.vested_chain blockAt r s =
        List.replicate (r - 1) (T / n) ++
          [T - ((n - r) * (T / n) + (r - 1) * (T / n))] := by
  intro r
  induction r with
  | zero => intro blockAt s T n _ _ _ _ h5 _ _ _; omega
  | succ k ih =>
      intro blockAt s T n hT hn hr hrel hr1 hrn hT1 hTmax
      cases k with
      | zero =>
          have hc : ¬ (1 < s.remaining_periods ∧
              satAdd256 s.released_amount
                  (ContractTreasury.calculate_payout_amount (.Vested s)) <
                s.data.total_amount) := by
            rw [hr]
            rintro ⟨hlt, _⟩
            omega
          rw [vested_chain_succ, if_neg hc]
          have hpay : ContractTreasury.calculate_payout_amount (.Vested s) =
              T - (n - 1) * (T / n) := by
            simp only [ContractTreasury.calculate_payout_amount, hr, hT, hrel]
            norm_num
          rw [hpay]
          simp
      | succ k2 =>
          have hn0 : n ≠ 0 := by omega
          have ha : n - (k2 + 1) = (n - (k2 + 2)) + 1 := by omega
          have hpay : ContractTreasury.calculate_payout_amount (.Vested s) = T / n := by
            simp only [ContractTreasury.calculate_payout_amount, hr, hT, hn, checkedDivNat]
            rw [if_neg (by omega), if_neg hn0]
            rfl
          have hstep : (n - (k2 + 2)) * (T / n) + T / n = (n - (k2 + 1)) * (T / n) := by
            rw [ha]
            ring
          have hnr : (n - (k2 + 1)) * (T / n) < T := by
            have h5 : (n - (k2 + 1)) * (T / n) ≤ (n - 1) * (T / n) :=
              Nat.mul_le_mul_right _ (by omega)
            have h6 : (n - 1) * (T / n) + T / n = n * (T / n) := by
              have hn1 : n - 1 + 1 = n := by omega
              calc (n - 1) * (T / n) + T / n = (n - 1 + 1) * (T / n) := by ring
                _ = n * (T / n) := by rw [hn1]
            have h7 : n * (T / n) ≤ T := by
              have := Nat.div_mul_le_self T n
              calc n * (T / n) = T / n * n := by ring
                _ ≤ T := this
            rcases Nat.eq_zero_or_pos (T / n) with hq0 | hq1
            · rw [hq0, Nat.mul_zero]
              omega
            · generalize hA : (n - (k2 + 1)) * (T / n) = A at h5
              generalize hB : (n - 1) * (T / n) = B at h5 h6
              generalize hD : n * (T / n) = D at h6 h7
              generalize hC : T / n = C at h6 hq1
              omega
          have hsat : satAdd256 s.released_amount
              (ContractTreasury.calculate_payout_amount (.Vested s)) =
                (n - (k2 + 1)) * (T / n) := by
            rw [hpay, hrel]
            unfold satAdd256
            have heq : n - (k2 + 1 + 1) = n - (k2 + 2) := by omega
            rw [heq, hstep]
            exact min_eq_left (le_trans (le_of_lt hnr) hTmax)
          have hcond : 1 < s.remaining_periods ∧
              satAdd256 s.released_amount
                  (ContractTreasury.calculate_payout_amount (.Vested s)) <
                s.data.total_amount := by
            rw [hr, hsat, hT]
            exact ⟨by omega, hnr⟩
          rw [vested_chain_succ, if_pos hcond]
          rw [ih blockAt
              (ContractTreasury.next_vested_payout (blockAt (k2 + 1)) s 0
                (satAdd256 s.released_amount
                  (ContractTreasury.calculate_payout_amount (.Vested s))))
              T n
              (by simp [ContractTreasury.next_vested_payout, hT])
              (by simp [ContractTreasury.next_vested_payout, hn])
              (by simp [ContractTreasury.next_vested_payout, hr])
              (by simp [ContractTreasury.next_vested_payout, hsat])
              (by omega) (by omega) hT1 hTmax]
          rw [hpay]
          have hsub : (n - (k2 + 1)) * (T / n) + (k2 + 1 - 1) * (T / n) =
              (n - (k2 + 1 + 1)) * (T / n) + (k2 + 1 + 1 - 1) * (T / n) := by
            have heq : n - (k2 + 1 + 1) = n - (k2 + 2) := by omega
            rw [Nat.add_sub_cancel, Nat.add_sub_cancel, heq, ← hstep]
            ring
          rw [hsub]
          simp [List.replicate_succ]

/-- Claim C1: a vested payout created by `add_vested_payout` with total `T` and
`n = vesting_duration_blocks / vesting_interval_blocks ≥ 1` installments pays,
across its full settled lifecycle, `n - 1` regular installments of
`⌊T / n⌋` followed by a final installment of `T` minus the accumulated
released amount, and the amounts paid sum to exactly `T`. -/
theorem c1_vested_conservation :
    ∀ (T n dur inter : Nat) (blockAt : Nat → Nat)
      (s : ContractTreasury.StoredVestedPayout),
      ContractTreasury.is_valid_precision_amount T = true →
      T ≤ U256Max →
      n = (checkedDivNat dur inter).getD 0 →
      1 ≤ n →
      s.data.total_amount = T →
      s.remaining_periods = n →
      s.original_total_periods = n →
      s.released_amount = 0 →
      (ContractTreasury.vested_chain blockAt n s =
          List.replicate (n - 1) (T / n) ++ [T - (n - 1) * (T / n)] ∧
        (ContractTreasury.vested_chain blockAt n s).sum = T) := by
  intro T n dur inter blockAt s hvalid hTmax hndef hn1 hT hrem horig hrel
  have hT1 : 1 ≤ T := by
    have := valid_precision_ge hvalid
    unfold ContractTreasury.PRECISION_FACTOR at this
    omega
  have hchain := vested_chain_closed_form n blockAt s T n hT horig hrem
    (by rw [hrel, Nat.sub_self, Nat.zero_mul]) hn1 le_rfl hT1 hTmax
  rw [Nat.sub_self, Nat.zero_mul, Nat.zero_add] at hchain
  refine ⟨hchain, ?_⟩
  rw [hchain]
  have hle : (n - 1) * (T / n) ≤ T := by
    have h5 : (n - 1) * (T / n) ≤ n * (T / n) := Nat.mul_le_mul_right _ (by omega)
    have h7 : n * (T / n) ≤ T := by
      have := Nat.div_mul_le_self T n
      calc n * (T / n) = T / n * n := by ring
        _ ≤ T := this
    exact le_trans h5 h7
  rw [List.sum_append, List.sum_replicate, smul_eq_mul]
  simp only [List.sum_cons, List.sum_nil]
  omega

/-- Witness for C1: the spec's own example, `T = 100,000,000` over `n = 7`
installments (six of 14,285,714 and one of 14,285,716, summing to `T`). -/
theorem c1_vested_conservation_witness :
    (ContractTreasury.vested_chain (fun _ => 0) 7 ContractTreasury.c1_sample).sum
      = 100000000 :=
  (c1_vested_conservation 100000000 7 70 10 (fun _ => 0) ContractTreasury.c1_sample
    (by decide) (by decide) (by decide) (by decide) rfl rfl rfl rfl).2

/-! Claim C2: fail-fast abort of settlement on transfer failure. -/

/-- If any transfer in the batch fails, the transfer loop reports failure. -/
theorem run_transfers_none (env : ContractTreasury.Env) :
    ∀ (l : List ContractTreasury.Payout) (k0 : Nat),
      (∃ j, ∃ h : j < l.length,
        env.transfer_ok (k0 + j) (ContractTreasury.payoutTo (l.get ⟨j, h⟩))
          (ContractTreasury.calculate_payout_amount (l.get ⟨j, h⟩)) = false) →
      ContractTreasury.run_transfers env l k0 = none := by
  intro l
  induction l with
  | nil =>
      intro k0 hfail
      obtain ⟨j, hj, _⟩ := hfail
      simp at hj
  | cons p rest ih =>
      intro k0 hfail
      cases htr : env.transfer_ok k0 (ContractTreasury.payoutTo p)
          (ContractTreasury.calculate_payout_amount p) with
      | false =>
          unfold ContractTreasury.run_transfers
          simp [htr]
      | true =>
          obtain ⟨j, hj, hf⟩ := hfail
          cases j with
          | zero =>
              rw [Nat.add_zero] at hf
              simp only [List.get] at hf
              rw [htr] at hf
              cases hf
          | succ j2 =>
              have hrec := ih (k0 + 1)
                ⟨j2, by simpa using hj, by
                  have : k0 + 1 + j2 = k0 + (j2 + 1) := by omega
                  rw [this]
                  simpa using hf⟩
              unfold ContractTreasury.run_transfers
              simp [htr, hrec]

/-- Claim C2: if, during a `process_payouts` call that passes the reentrancy
guard, the external transfer fails for some selected payout, the whole call
aborts: it returns `InsufficientBalance`, the latch is back to `false`, and
the returned state — pending list, payouts store, archive, index mapping,
`pending_count` and `next_payout_id` — is exactly the pre-call state. -/
theorem c2_failfast_no_mutation :
    ∀ (env : ContractTreasury.Env) (t : ContractTreasury.Treasury),
      t.is_processing = false →
      (∃ j, ∃ h : j < (ContractTreasury.select_ready env.block_number t).length,
        env.transfer_ok j
          (ContractTreasury.payoutTo
            ((ContractTreasury.select_ready env.block_number t).get ⟨j, h⟩))
          (ContractTreasury.calculate_payout_amount
            ((ContractTreasury.select_ready env.block_number t).get ⟨j, h⟩)) = false) →
      ContractTreasury.process_payouts env t = (t, .error .InsufficientBalance) := by
  intro env t h0 hfail
  have hsel : ContractTreasury.select_ready env.block_number
      { t with is_processing := true } =
      ContractTreasury.select_ready env.block_number t := rfl
  have hnone : ContractTreasury.run_transfers env
      (ContractTreasury.select_ready env.block_number { t with is_processing := true }) 0 =
      none := by
    rw [hsel]
    apply run_transfers_none
    obtain ⟨j, hj, hf⟩ := hfail
    exact ⟨j, hj, by simpa using hf⟩
  unfold ContractTreasury.process_payouts
  rw [if_neg (by simp [h0])]
  dsimp only
  rw [hnone]
  cases t
  simp_all

/-- Witness for C2: one ready pending payout, a transfer oracle that always
fails; the call returns `InsufficientBalance` and the state is untouched. -/
theorem c2_failfast_no_mutation_witness :
    ContractTreasury.process_payouts ContractTreasury.env_fail
        ContractTreasury.t_one_pending =
      (ContractTreasury.t_one_pending, .error .InsufficientBalance) :=
  c2_failfast_no_mutation ContractTreasury.env_fail ContractTreasury.t_one_pending rfl
    ⟨0, by decide, by decide⟩

/-! Claim C5: id uniqueness.  The v5 contract derives ids from the length of
the pending vector, so ids are reused after a removal. -/

/-- Claim C5 (failing on v5): after add(id 1), add(id 2), cancel(id 1) and one
more add, the v5 pending vector holds two distinct records both carrying id 2
— `add_payout_internal` computed the new id as `pending.len() + 1 = 2`, which
was already taken.  The two records are distinct (amounts 2,000,000 and
3,000,000), so payout ids are neither unique nor never-reused in v5. -/
theorem c5_v5_duplicate_ids :
    ContractTreasuryV5.c5_state5.pending_payouts.map ContractTreasuryV5.Payout.id
        = [2, 2] ∧
      ContractTreasuryV5.c5_state5.pending_payouts.map ContractTreasuryV5.Payout.amount
        = [2000000, 3000000] :=
  ⟨rfl, rfl⟩

/-! Claim C8: the cancellation workflow. -/

/-- Counterexample to C8 as stated: in v6, once the cancellation threshold is
met the record is removed from the pending set but is NOT moved to the
archive and its status is never set to `Cancelled` — the call succeeds,
pending empties, and the past-payout mapping and id list stay empty. -/
theorem c8_cancel_not_archived_counterexample :
    (ContractTreasuryV6.cancel_payout ContractTreasuryV6.c8_env
        ContractTreasuryV6.c8_state 1).2 = .ok () ∧
    (ContractTreasuryV6.cancel_payout ContractTreasuryV6.c8_env
        ContractTreasuryV6.c8_state 1).1.pending_payouts = [] ∧
    (ContractTreasuryV6.cancel_payout ContractTreasuryV6.c8_env
        ContractTreasuryV6.c8_state 1).1.past_payout_ids = [] ∧
    alookup (ContractTreasuryV6.cancel_payout ContractTreasuryV6.c8_env
        ContractTreasuryV6.c8_state 1).1.past_payouts 1 = none :=
  ⟨rfl, rfl, rfl, rfl⟩

/-- Claim C8 as amended: in v6, `cancel_payout` (called by a treasurer) adds
the caller to `cancellation_approvals` at most once; on the call where the
count first meets `required_approvals(amount)` the record is removed from the
pending set and discarded — it is not archived and no `Cancelled` status is
recorded; below the threshold the record stays with the updated approval set;
and the call fails with `PayoutNotFound` when the id does not reference a
pending record.  In the consolidated contract, owner cancellation does archive
the record with status `Cancelled(current_block)`. -/
theorem c8_cancel_behaviour :
    (∀ (env : ContractTreasuryV6.Env) (t : ContractTreasuryV6.Treasury) (pid : Nat),
      listHas t.treasurers env.caller = true →
      ((∀ p ∈ t.pending_payouts, p.id ≠ pid) →
        ContractTreasuryV6.cancel_payout env t pid = (t, .error .PayoutNotFound)) ∧
      (∀ i p_rec,
        t.pending_payouts.findIdx? (fun p => decide (p.id = pid)) = some i →
        t.pending_payouts[i]? = some p_rec →
        (let aps :=
          if listHas p_rec.cancellation_approvals env.caller then
            p_rec.cancellation_approvals
          else p_rec.cancellation_approvals ++ [env.caller]
         (ContractTreasuryV6.cancel_payout env t pid).2 = .ok () ∧
         (ContractTreasuryV6.cancel_payout env t pid).1.past_payouts = t.past_payouts ∧
         (ContractTreasuryV6.cancel_payout env t pid).1.past_payout_ids =
           t.past_payout_ids ∧
         (ContractTreasuryV6.get_required_approvals t p_rec.amount ≤ aps.length →
           (ContractTreasuryV6.cancel_payout env t pid).1.pending_payouts =
             t.pending_payouts.eraseIdx i) ∧
         (aps.length < ContractTreasuryV6.get_required_approvals t p_rec.amount →
           (ContractTreasuryV6.cancel_payout env t pid).1.pending_payouts =
             t.pending_payouts.set i { p_rec with cancellation_approvals := aps })))) ∧
    (∀ (env : ContractTreasury.Env) (t : ContractTreasury.Treasury) (pid : Nat)
        (p : ContractTreasury.Payout),
      env.caller = t.owner →
      ContractTreasury.get_payout_by_id t pid = some p →
      ContractTreasury.payoutStatus p = .Pending →
      ((ContractTreasury.cancel_payout env t pid).2 = .ok () ∧
        alookup (ContractTreasury.cancel_payout env t pid).1.archived_payouts pid =
          some (ContractTreasury.set_status_cancelled env.block_number p))) := by
  constructor
  · intro env t pid hca
    constructor
    · intro hnone
      have hidx : t.pending_payouts.findIdx? (fun p => decide (p.id = pid)) = none :=
        findIdx_none_of_forall _ _ (fun p hp => by simp [hnone p hp])
      simp [ContractTreasuryV6.cancel_payout, hca, hidx]
    · intro i p_rec hfind hget
      have hred : ContractTreasuryV6.cancel_payout env t pid =
          (let payout' :=
            if listHas p_rec.cancellation_approvals env.caller then p_rec
            else
              { p_rec with
                  cancellation_approvals := p_rec.cancellation_approvals ++ [env.caller] }
           if ContractTreasuryV6.get_required_approvals t p_rec.amount ≤
               payout'.cancellation_approvals.length then
             ({ t with pending_payouts := t.pending_payouts.eraseIdx i }, .ok ())
           else
             ({ t with pending_payouts := t.pending_payouts.set i payout' }, .ok ())) := by
        simp only [ContractTreasuryV6.cancel_payout, hca, Bool.not_true, Bool.false_eq_true,
          if_false, hfind, hget]
      dsimp only
      by_cases hmem : listHas p_rec.cancellation_approvals env.caller = true
      · simp only [hmem, if_true] at hred ⊢
        by_cases hreq : ContractTreasuryV6.get_required_approvals t p_rec.amount ≤
            p_rec.cancellation_approvals.length
        · rw [hred, if_pos hreq]
          refine ⟨rfl, rfl, rfl, fun _ => rfl, fun hlt => absurd hreq (by omega)⟩
        · rw [hred, if_neg hreq]
          refine ⟨rfl, rfl, rfl, fun hle => absurd hle hreq, fun _ => rfl⟩
      · simp only [Bool.not_eq_true] at hmem
        simp only [hmem, Bool.false_eq_true, if_false] at hred ⊢
        by_cases hreq : ContractTreasuryV6.get_required_approvals t p_rec.amount ≤
            (p_rec.cancellation_approvals ++ [env.caller]).length
        · rw [hred, if_pos hreq]
          refine ⟨rfl, rfl, rfl, fun _ => rfl, fun hlt => absurd hreq (by omega)⟩
        · rw [hred, if_neg hreq]
          refine ⟨rfl, rfl, rfl, fun hle => absurd hle hreq, fun _ => rfl⟩
  · intro env t pid p hown hget hstat
    have hred : ContractTreasury.cancel_payout env t pid =
        (let payout' := ContractTreasury.set_status_cancelled env.block_number p
         let t1 :=
           { t with
               archived_payouts := ainsert t.archived_payouts pid payout',
               processed_payout_ids := t.processed_payout_ids ++ [pid] }
         let t2 := ContractTreasury.remove_processed_ids [pid] t1
         ({ t2 with pending_count := t2.pending_count - 1 }, .ok ())) := by
      unfold ContractTreasury.cancel_payout
      rw [if_neg (by simp [hown]), hget]
      dsimp only
      rw [if_neg (by simp [hstat])]
    rw [hred]
    constructor
    · rfl
    · show alookup
        (ainsert t.archived_payouts pid
          (ContractTreasury.set_status_cancelled env.block_number p)) pid =
        some (ContractTreasury.set_status_cancelled env.block_number p)
      exact alookup_ainsert_self

/-- Witness for C8 (amended): with one treasurer the first cancellation call
meets the threshold and erases the pending record. -/
theorem c8_cancel_behaviour_witness :
    (ContractTreasuryV6.cancel_payout ContractTreasuryV6.c8_env
        ContractTreasuryV6.c8_state 1).1.pending_payouts =
      ContractTreasuryV6.c8_state.pending_payouts.eraseIdx 0 :=
  ((c8_cancel_behaviour.1 ContractTreasuryV6.c8_env ContractTreasuryV6.c8_state 1
      (by decide)).2 0 (ContractTreasuryV6.sample_payout 1 7 1000000 1)
      (by decide) (by decide)).2.2.2.1 (by decide)

/-! Claim C9 infrastructure: invariants of the consolidated treasury. -/

theorem payoutId_set_status_completed (b : Nat) (p : ContractTreasury.Payout) :
    ContractTreasury.payoutId (ContractTreasury.set_status_completed b p) =
      ContractTreasury.payoutId p := by
  cases p <;> rfl

theorem payoutStatus_set_status_completed (b : Nat) (p : ContractTreasury.Payout) :
    ContractTreasury.payoutStatus (ContractTreasury.set_status_completed b p) =
      .Completed b := by
  cases p <;> rfl

theorem terminal_ne_pending {s : ContractTreasury.PayoutStatus}
    (h : ContractTreasury.isTerminal s = true) : s ≠ .Pending := by
  cases s <;> simp_all [ContractTreasury.isTerminal]

theorem mem_aremove_ne {α : Type} {l : List (Nat × α)} {k : Nat} {e : Nat × α}
    (h : e ∈ aremove l k) : e.1 ≠ k := by
  induction l with
  | nil => simp [aremove] at h
  | cons e2 rest ih =>
      by_cases h2 : e2.1 = k
      · rw [aremove, if_pos h2] at h
        exact ih h
      · rw [aremove, if_neg h2] at h
        rcases List.mem_cons.mp h with h1 | h1
        · exact h1 ▸ h2
        · exact ih h1

theorem getElem?_append_length {α : Type} :
    ∀ {l : List α} {x : α}, (l ++ [x])[l.length]? = some x := by
  intro l
  induction l with
  | nil => intro x; rfl
  | cons a rest ih => intro x; simp [ih]

theorem run_transfers_some_ids (env : ContractTreasury.Env) :
    ∀ (l : List ContractTreasury.Payout) (k : Nat) (ids : List Nat),
      ContractTreasury.run_transfers env l k = some ids →
      ids = l.map ContractTreasury.payoutId := by
  intro l
  induction l with
  | nil =>
      intro k ids h
      simp only [ContractTreasury.run_transfers] at h
      cases h
      rfl
  | cons p rest ih =>
      intro k ids h
      simp only [ContractTreasury.run_transfers] at h
      by_cases htr : env.transfer_ok k (ContractTreasury.payoutTo p)
          (ContractTreasury.calculate_payout_amount p) = true
      · rw [if_pos htr] at h
        cases hr : ContractTreasury.run_transfers env rest (k + 1) with
        | some ids2 =>
            rw [hr] at h
            cases h
            rw [List.map_cons, ih (k + 1) ids2 hr]
        | none => rw [hr] at h; cases h
      · rw [if_neg htr] at h
        cases h

theorem select_ready_mem {b : Nat} {t : ContractTreasury.Treasury}
    {q : ContractTreasury.Payout}
    (hinv : ContractTreasury.Inv t)
    (hq : q ∈ ContractTreasury.select_ready b t) :
    ContractTreasury.payoutStatus q = .Pending ∧
    (∃ pos, alookup t.payout_index (ContractTreasury.payoutId q) = some pos) ∧
    ContractTreasury.payoutId q ∈ t.pending_payout_ids ∧
    ContractTreasury.payoutId q < t.next_payout_id := by
  obtain ⟨h1, h2, h3, h4, h5, h6, h7⟩ := hinv
  unfold ContractTreasury.select_ready at hq
  rw [List.mem_filter] at hq
  obtain ⟨hmem, hpred⟩ := hq
  rw [List.mem_filterMap] at hmem
  obtain ⟨key, hkey, hget⟩ := hmem
  rw [Bool.and_eq_true, decide_eq_true_eq] at hpred
  obtain ⟨hstat, _⟩ := hpred
  unfold ContractTreasury.get_payout_by_id at hget
  cases hlk : alookup t.payout_index key with
  | some pos =>
      simp only [hlk] at hget
      obtain ⟨p', hp', hpid⟩ := h5 (key, pos) (alookup_mem hlk)
      have hpq : p' = q := by
        rw [hget] at hp'
        exact (Option.some.inj hp').symm
      subst hpq
      refine ⟨hstat, ⟨pos, ?_⟩, ?_, ?_⟩
      · rw [hpid]; exact hlk
      · rw [hpid]; exact hkey
      · rw [hpid]; exact h4 (key, pos) (alookup_mem hlk)
  | none =>
      simp only [hlk] at hget
      have hterm := h1 (key, q) (alookup_mem hget)
      exact absurd hstat (terminal_ne_pending hterm.1)

theorem selected_id_ne_archived {b : Nat} {t : ContractTreasury.Treasury}
    {q p : ContractTreasury.Payout} {id : Nat}
    (hinv : ContractTreasury.Inv t)
    (harch : alookup t.archived_payouts id = some p)
    (hq : q ∈ ContractTreasury.select_ready b t) :
    ContractTreasury.payoutId q ≠ id := by
  obtain ⟨_, ⟨pos, hpos⟩, _, _⟩ := select_ready_mem hinv hq
  intro heq
  have hnone := hinv.2.1 (id, p) (alookup_mem harch)
  rw [heq] at hpos
  rw [hpos] at hnone
  cases hnone

theorem add_spawned_hppinv {t0 t' : ContractTreasury.Treasury}
    {R : List ContractTreasury.Payout} {p : ContractTreasury.Payout}
    (hinv : ContractTreasury.HppInv t0 R t')
    (hbound : t'.next_payout_id < u32Max)
    (hpid : ContractTreasury.payoutId p = t'.next_payout_id) :
    ContractTreasury.HppInv t0 R (ContractTreasury.add_spawned t' p) ∧
    (ContractTreasury.add_spawned t' p).next_payout_id = t'.next_payout_id + 1 ∧
    (ContractTreasury.add_spawned t' p).archived_payouts = t'.archived_payouts := by
  obtain ⟨h1, h2, h3, h4, h5, h6, h7, h8, h9⟩ := hinv
  have hnext : satAdd32 t'.next_payout_id 1 = t'.next_payout_id + 1 := by
    unfold satAdd32 u32Max
    unfold u32Max at hbound
    omega
  have hn2 : (ContractTreasury.add_spawned t' p).next_payout_id =
      t'.next_payout_id + 1 := by
    unfold ContractTreasury.add_spawned
    exact hnext
  refine ⟨?_, hn2, rfl⟩
  unfold ContractTreasury.add_spawned ContractTreasury.HppInv
  rw [hnext]
  refine ⟨h1, ?_, ?_, ?_, ?_, ?_, ?_, ?_, ?_⟩
  · intro e he
    rcases h2 e he with hn | hr
    · left
      rw [alookup_ainsert_ne (Nat.ne_of_lt (h3 e he)).symm]
      exact hn
    · right; exact hr
  · intro e he
    exact Nat.lt_succ_of_lt (h3 e he)
  · intro e he
    rcases mem_ainsert he with h | h
    · exact Nat.lt_succ_of_lt (h4 e h)
    · subst h
      exact Nat.lt_succ_self _
  · intro e he
    rcases mem_ainsert he with h | h
    · obtain ⟨pp, hget, hid⟩ := h5 e h
      exact ⟨pp, getElem?_append_of_some hget, hid⟩
    · subst h
      exact ⟨p, getElem?_append_length, hpid⟩
  · intro e he
    rcases mem_ainsert he with h | h
    · exact List.mem_append_left _ (h6 e h)
    · subst h
      exact List.mem_append_right _ (List.mem_singleton.mpr rfl)
  · intro x hx
    exact List.mem_append_left _ (h7 x hx)
  · exact le_trans h8 (Nat.le_succ _)
  · show t'.next_payout_id + 1 ≤ u32Max
    unfold u32Max
    unfold u32Max at hbound
    omega

theorem spawn_followup_archived (b : Nat) (t' : ContractTreasury.Treasury)
    (q : ContractTreasury.Payout) :
    (ContractTreasury.spawn_followup b t' q).archived_payouts = t'.archived_payouts := by
  cases q with
  | OneTime s => rfl
  | Recurring s =>
      simp only [ContractTreasury.spawn_followup]
      split <;> rfl
  | Vested s =>
      simp only [ContractTreasury.spawn_followup]
      split <;> rfl

theorem spawn_followup_hppinv {t0 t' : ContractTreasury.Treasury}
    {R : List ContractTreasury.Payout} (b : Nat) (q : ContractTreasury.Payout)
    (hinv : ContractTreasury.HppInv t0 R t')
    (hbound : t'.next_payout_id < u32Max) :
    ContractTreasury.HppInv t0 R (ContractTreasury.spawn_followup b t' q) ∧
    (ContractTreasury.spawn_followup b t' q).next_payout_id ≤ t'.next_payout_id + 1 ∧
    t'.next_payout_id ≤ (ContractTreasury.spawn_followup b t' q).next_payout_id := by
  obtain ⟨h1, h2, h3, h4, h5, h6, h7, h8, h9⟩ := hinv
  cases q with
  | OneTime s => exact ⟨⟨h1, h2, h3, h4, h5, h6, h7, h8, h9⟩, Nat.le_succ _, le_rfl⟩
  | Recurring s =>
      simp only [ContractTreasury.spawn_followup]
      split
      · have h := @add_spawned_hppinv t0 t' R
          (.Recurring (ContractTreasury.next_recurring_payout b s t'.next_payout_id))
          ⟨h1, h2, h3, h4, h5, h6, h7, h8, h9⟩ hbound rfl
        exact ⟨h.1, le_of_eq h.2.1, by rw [h.2.1]; exact Nat.le_succ _⟩
      · exact ⟨⟨h1, h2, h3, h4, h5, h6, h7, h8, h9⟩, Nat.le_succ _, le_rfl⟩
  | Vested s =>
      simp only [ContractTreasury.spawn_followup]
      split
      · have h := @add_spawned_hppinv t0 t' R
          (.Vested (ContractTreasury.next_vested_payout b s t'.next_payout_id
            (satAdd256 s.released_amount
              (ContractTreasury.calculate_payout_amount (.Vested s)))))
          ⟨h1, h2, h3, h4, h5, h6, h7, h8, h9⟩ hbound rfl
        exact ⟨h.1, le_of_eq h.2.1, by rw [h.2.1]; exact Nat.le_succ _⟩
      · exact ⟨⟨h1, h2, h3, h4, h5, h6, h7, h8, h9⟩, Nat.le_succ _, le_rfl⟩

theorem move_to_processed_hppinv {t0 t' : ContractTreasury.Treasury}
    {R : List ContractTreasury.Payout} (b : Nat) (q : ContractTreasury.Payout)
    (hinv : ContractTreasury.HppInv t0 R t')
    (hq1 : ContractTreasury.payoutId q ∈ t0.pending_payout_ids)
    (hq2 : ContractTreasury.payoutId q ∈ R.map ContractTreasury.payoutId)
    (hq3 : ContractTreasury.payoutId q < t0.next_payout_id) :
    ContractTreasury.HppInv t0 R (ContractTreasury.move_to_processed b t' q) ∧
    (ContractTreasury.move_to_processed b t' q).next_payout_id = t'.next_payout_id := by
  obtain ⟨h1, h2, h3, h4, h5, h6, h7, h8, h9⟩ := hinv
  have hkey : (ContractTreasury.get_payout_info
      (ContractTreasury.set_status_completed b q)).1 = ContractTreasury.payoutId q :=
    payoutId_set_status_completed b q
  refine ⟨?_, rfl⟩
  unfold ContractTreasury.move_to_processed ContractTreasury.HppInv
  dsimp only
  rw [hkey]
  refine ⟨?_, ?_, ?_, h4, h5, h6, h7, h8, h9⟩
  · intro e he
    rcases mem_ainsert he with h | h
    · exact h1 e h
    · subst h
      refine ⟨?_, hkey⟩
      rw [payoutStatus_set_status_completed]
      rfl
  · intro e he
    rcases mem_ainsert he with h | h
    · exact h2 e h
    · subst h
      exact Or.inr ⟨hq1, hq2⟩
  · intro e he
    rcases mem_ainsert he with h | h
    · exact h3 e h
    · subst h
      exact lt_of_lt_of_le hq3 h8

theorem hpp_fold_hppinv (b : Nat) (t0 : ContractTreasury.Treasury)
    (R : List ContractTreasury.Payout) :
    ∀ (l : List ContractTreasury.Payout) (t' : ContractTreasury.Treasury),
      ContractTreasury.HppInv t0 R t' →
      (∀ q ∈ l, ContractTreasury.payoutId q ∈ t0.pending_payout_ids ∧
        ContractTreasury.payoutId q ∈ R.map ContractTreasury.payoutId ∧
        ContractTreasury.payoutId q < t0.next_payout_id) →
      t'.next_payout_id + l.length ≤ u32Max →
      ContractTreasury.HppInv t0 R (l.foldl (ContractTreasury.hpp_step b) t') := by
  intro l
  induction l with
  | nil => intro t' hinv _ _; exact hinv
  | cons q rest ih =>
      intro t' hinv hq hbudget
      have hbound : t'.next_payout_id < u32Max := by
        simp only [List.length_cons] at hbudget
        omega
      have hsp := spawn_followup_hppinv b q hinv hbound
      obtain ⟨hqf1, hqf2, hqf3⟩ := hq q (List.mem_cons_self _ _)
      have hmv := move_to_processed_hppinv b q hsp.1 hqf1 hqf2 hqf3
      rw [List.foldl_cons]
      refine ih (ContractTreasury.hpp_step b t' q) hmv.1
        (fun q2 hq2 => hq q2 (List.mem_cons_of_mem _ hq2)) ?_
      have hle : (ContractTreasury.hpp_step b t' q).next_payout_id ≤
          t'.next_payout_id + 1 := by
        unfold ContractTreasury.hpp_step
        rw [hmv.2]
        exact hsp.2.1
      simp only [List.length_cons] at hbudget
      omega

theorem hpp_fold_freeze (b : Nat) :
    ∀ (l : List ContractTreasury.Payout) (t' : ContractTreasury.Treasury)
      (id : Nat) (p : ContractTreasury.Payout),
      alookup t'.archived_payouts id = some p →
      (∀ q ∈ l, ContractTreasury.payoutId q ≠ id) →
      alookup ((l.foldl (ContractTreasury.hpp_step b) t')).archived_payouts id = some p := by
  intro l
  induction l with
  | nil => intro t' id p h _; exact h
  | cons q rest ih =>
      intro t' id p h hne
      rw [List.foldl_cons]
      refine ih _ id p ?_ (fun q2 hq2 => hne q2 (List.mem_cons_of_mem _ hq2))
      unfold ContractTreasury.hpp_step ContractTreasury.move_to_processed
      have hkey : (ContractTreasury.get_payout_info
          (ContractTreasury.set_status_completed b q)).1 =
            ContractTreasury.payoutId q :=
        payoutId_set_status_completed b q
      simp only [hkey]
      rw [alookup_ainsert_ne (hne q (List.mem_cons_self _ _)),
        spawn_followup_archived]
      exact h

theorem remove_loop_idx_subset (P : List Nat) :
    ∀ (l acc : List Nat) (idx : List (Nat × Nat)) (e : Nat × Nat),
      e ∈ (ContractTreasury.remove_loop P l acc idx).2 → e ∈ idx := by
  intro l
  induction l with
  | nil =>
      intro acc idx e h
      simp only [ContractTreasury.remove_loop] at h
      exact h
  | cons id rest ih =>
      intro acc idx e h
      unfold ContractTreasury.remove_loop at h
      by_cases hid : listHas P id = true
      · rw [if_pos hid] at h
        exact mem_aremove (ih _ _ _ h)
      · rw [if_neg hid] at h
        exact ih _ _ _ h

theorem remove_loop_none (P : List Nat) (l acc : List Nat) (idx : List (Nat × Nat))
    (k : Nat) (h : alookup idx k = none) :
    alookup (ContractTreasury.remove_loop P l acc idx).2 k = none := by
  rw [alookup_eq_none_iff] at h ⊢
  intro e he
  exact h e (remove_loop_idx_subset P l acc idx e he)

theorem remove_loop_removes (P : List Nat) :
    ∀ (l acc : List Nat) (idx : List (Nat × Nat)) (k : Nat),
      k ∈ l → listHas P k = true →
      alookup (ContractTreasury.remove_loop P l acc idx).2 k = none := by
  intro l
  induction l with
  | nil =>
      intro acc idx k hk _
      simp at hk
  | cons id rest ih =>
      intro acc idx k hk hP
      unfold ContractTreasury.remove_loop
      rcases List.mem_cons.mp hk with heq | hmem
      · subst heq
        rw [if_pos hP]
        exact remove_loop_none P rest acc (aremove idx k) k alookup_aremove_self
      · by_cases hid : listHas P id = true
        · rw [if_pos hid]
          exact ih _ _ _ hmem hP
        · rw [if_neg hid]
          exact ih _ _ _ hmem hP

theorem remove_loop_key_mem (P : List Nat) :
    ∀ (l acc : List Nat) (idx : List (Nat × Nat)),
      (∀ e ∈ idx, e.1 ∈ l ∨ e.1 ∈ acc) →
      ∀ e ∈ (ContractTreasury.remove_loop P l acc idx).2,
        e.1 ∈ (ContractTreasury.remove_loop P l acc idx).1 := by
  intro l
  induction l with
  | nil =>
      intro acc idx hpre e he
      simp only [ContractTreasury.remove_loop] at he ⊢
      rcases hpre e he with h | h
      · simp at h
      · exact h
  | cons id rest ih =>
      intro acc idx hpre e he
      unfold ContractTreasury.remove_loop at he ⊢
      by_cases hid : listHas P id = true
      · rw [if_pos hid] at he ⊢
        refine ih acc (aremove idx id) ?_ e he
        intro e2 he2
        have hm := mem_aremove he2
        have hne := mem_aremove_ne he2
        rcases hpre e2 hm with h | h
        · rcases List.mem_cons.mp h with h1 | h1
          · exact absurd h1 hne
          · exact Or.inl h1
        · exact Or.inr h
      · rw [if_neg hid] at he ⊢
        refine ih (acc ++ [id]) idx ?_ e he
        intro e2 he2
        rcases hpre e2 he2 with h | h
        · rcases List.mem_cons.mp h with h1 | h1
          · exact Or.inr (by simp [h1])
          · exact Or.inl h1
        · exact Or.inr (by simp [h])

theorem payoutId_set_status_cancelled (b : Nat) (p : ContractTreasury.Payout) :
    ContractTreasury.payoutId (ContractTreasury.set_status_cancelled b p) =
      ContractTreasury.payoutId p := by
  cases p <;> rfl

theorem payoutStatus_set_status_cancelled (b : Nat) (p : ContractTreasury.Payout) :
    ContractTreasury.payoutStatus (ContractTreasury.set_status_cancelled b p) =
      .Cancelled b := by
  cases p <;> rfl

theorem get_pending_via_index {t : ContractTreasury.Treasury} {pid : Nat}
    {payout : ContractTreasury.Payout}
    (hinv : ContractTreasury.Inv t)
    (hget : ContractTreasury.get_payout_by_id t pid = some payout)
    (hstat : ContractTreasury.payoutStatus payout = .Pending) :
    ContractTreasury.payoutId payout = pid ∧ pid ∈ t.pending_payout_ids ∧
    pid < t.next_payout_id ∧ (∃ pos, alookup t.payout_index pid = some pos) := by
  unfold ContractTreasury.get_payout_by_id at hget
  cases hlk : alookup t.payout_index pid with
  | some pos =>
      simp only [hlk] at hget
      obtain ⟨p', hp', hpid⟩ := hinv.2.2.2.2.1 (pid, pos) (alookup_mem hlk)
      have hpq : p' = payout := by
        rw [hget] at hp'
        exact (Option.some.inj hp').symm
      subst hpq
      exact ⟨hpid, hinv.2.2.2.2.2.1 (pid, pos) (alookup_mem hlk),
        hinv.2.2.2.1 (pid, pos) (alookup_mem hlk), ⟨pos, rfl⟩⟩
  | none =>
      simp only [hlk] at hget
      have hterm := hinv.1 (pid, payout) (alookup_mem hget)
      exact absurd hstat (terminal_ne_pending hterm.1)

theorem add_payout_internal_inv (env : ContractTreasury.Env)
    (t : ContractTreasury.Treasury) (payout : ContractTreasury.Payout)
    (hinv : ContractTreasury.Inv t)
    (hbound : t.next_payout_id < u32Max)
    (hpid : ContractTreasury.payoutId payout = t.next_payout_id) :
    ContractTreasury.Inv (ContractTreasury.add_payout_internal env t payout).1 := by
  obtain ⟨h1, h2, h3, h4, h5, h6, h7⟩ := hinv
  unfold ContractTreasury.add_payout_internal
  by_cases hown : env.caller ≠ t.owner
  · rw [if_pos hown]
    exact ⟨h1, h2, h3, h4, h5, h6, h7⟩
  · rw [if_neg hown]
    dsimp only
    split
    · have hnext : satAdd32 t.next_payout_id 1 = t.next_payout_id + 1 := by
        unfold satAdd32 u32Max
        unfold u32Max at hbound
        omega
      have hkey : (ContractTreasury.get_payout_info payout).1 =
          t.next_payout_id := hpid
      unfold ContractTreasury.Inv
      dsimp only
      rw [hnext, hkey]
      refine ⟨h1, ?_, ?_, ?_, ?_, ?_, ?_⟩
      · intro e he
        rw [alookup_ainsert_ne (Nat.ne_of_lt (h3 e he)).symm]
        exact h2 e he
      · intro e he
        exact Nat.lt_succ_of_lt (h3 e he)
      · intro e he
        rcases mem_ainsert he with h | h
        · exact Nat.lt_succ_of_lt (h4 e h)
        · subst h
          exact Nat.lt_succ_self _
      · intro e he
        rcases mem_ainsert he with h | h
        · obtain ⟨pp, hget, hid⟩ := h5 e h
          exact ⟨pp, getElem?_append_of_some hget, hid⟩
        · subst h
          exact ⟨payout, getElem?_append_length, hpid⟩
      · intro e he
        rcases mem_ainsert he with h | h
        · exact List.mem_append_left _ (h6 e h)
        · subst h
          exact List.mem_append_right _ (List.mem_singleton.mpr rfl)
      · show t.next_payout_id + 1 ≤ u32Max
        unfold u32Max
        unfold u32Max at hbound
        omega
    · exact ⟨h1, h2, h3, h4, h5, h6, h7⟩

theorem add_payout_internal_archived (env : ContractTreasury.Env)
    (t : ContractTreasury.Treasury) (payout : ContractTreasury.Payout) :
    (ContractTreasury.add_payout_internal env t payout).1.archived_payouts =
      t.archived_payouts := by
  unfold ContractTreasury.add_payout_internal
  by_cases hown : env.caller ≠ t.owner
  · rw [if_pos hown]
  · rw [if_neg hown]
    dsimp only
    split <;> rfl

theorem cancel_payout_red (env : ContractTreasury.Env) (t : ContractTreasury.Treasury)
    (pid : Nat) (payout : ContractTreasury.Payout)
    (hown : ¬ env.caller ≠ t.owner)
    (hget : ContractTreasury.get_payout_by_id t pid = some payout)
    (hstat : ¬ ContractTreasury.payoutStatus payout ≠ .Pending) :
    ContractTreasury.cancel_payout env t pid =
      (let payout' := ContractTreasury.set_status_cancelled env.block_number payout
       let t1 :=
         { t with
             archived_payouts := ainsert t.archived_payouts pid payout',
             processed_payout_ids := t.processed_payout_ids ++ [pid] }
       let t2 := ContractTreasury.remove_processed_ids [pid] t1
       ({ t2 with pending_count := t2.pending_count - 1 }, .ok ())) := by
  unfold ContractTreasury.cancel_payout
  rw [if_neg hown, hget]
  dsimp only
  rw [if_neg hstat]

theorem cancel_payout_inv (env : ContractTreasury.Env) (t : ContractTreasury.Treasury)
    (pid : Nat) (hinv : ContractTreasury.Inv t) :
    ContractTreasury.Inv (ContractTreasury.cancel_payout env t pid).1 := by
  by_cases hown : env.caller ≠ t.owner
  · unfold ContractTreasury.cancel_payout
    rw [if_pos hown]
    exact hinv
  · cases hget : ContractTreasury.get_payout_by_id t pid with
    | none =>
        unfold ContractTreasury.cancel_payout
        rw [if_neg hown, hget]
        exact hinv
    | some payout =>
        by_cases hstat : ContractTreasury.payoutStatus payout = .Pending
        · have hred := cancel_payout_red env t pid payout hown hget (by simp [hstat])
          obtain ⟨hpid, hpend, hlt, pos, hpos⟩ := get_pending_via_index hinv hget hstat
          obtain ⟨h1, h2, h3, h4, h5, h6, h7⟩ := hinv
          have harch_eq : (ContractTreasury.cancel_payout env t pid).1.archived_payouts =
              ainsert t.archived_payouts pid
                (ContractTreasury.set_status_cancelled env.block_number payout) := by
            rw [hred]
            rfl
          have hidx_eq : (ContractTreasury.cancel_payout env t pid).1.payout_index =
              (ContractTreasury.remove_loop [pid] t.pending_payout_ids []
                t.payout_index).2 := by
            rw [hred]
            rfl
          have hpend_eq : (ContractTreasury.cancel_payout env t pid).1.pending_payout_ids =
              (ContractTreasury.remove_loop [pid] t.pending_payout_ids []
                t.payout_index).1 := by
            rw [hred]
            rfl
          have hpay_eq : (ContractTreasury.cancel_payout env t pid).1.payouts =
              t.payouts := by
            rw [hred]
            rfl
          have hnext_eq : (ContractTreasury.cancel_payout env t pid).1.next_payout_id =
              t.next_payout_id := by
            rw [hred]
            rfl
          unfold ContractTreasury.Inv
          rw [harch_eq, hidx_eq, hpend_eq, hpay_eq, hnext_eq]
          refine ⟨?_, ?_, ?_, ?_, ?_, ?_, h7⟩
          · intro e he
            rcases mem_ainsert he with h | h
            · exact h1 e h
            · subst h
              refine ⟨?_, ?_⟩
              · rw [payoutStatus_set_status_cancelled]
                rfl
              · rw [payoutId_set_status_cancelled]
                exact hpid
          · intro e he
            rcases mem_ainsert he with h | h
            · exact remove_loop_none _ _ _ _ _ (h2 e h)
            · subst h
              exact remove_loop_removes _ _ _ _ _ hpend (by simp [listHas])
          · intro e he
            rcases mem_ainsert he with h | h
            · exact h3 e h
            · subst h
              exact hlt
          · intro e he
            exact h4 e (remove_loop_idx_subset _ _ _ _ e he)
          · intro e he
            exact h5 e (remove_loop_idx_subset _ _ _ _ e he)
          · intro e he
            exact remove_loop_key_mem _ _ _ _ (fun e2 he2 => Or.inl (h6 e2 he2)) e he
        · unfold ContractTreasury.cancel_payout
          rw [if_neg hown, hget]
          dsimp only
          rw [if_pos hstat]
          exact hinv

theorem cancel_payout_freeze (env : ContractTreasury.Env) (t : ContractTreasury.Treasury)
    (pid id : Nat) (p : ContractTreasury.Payout)
    (hinv : ContractTreasury.Inv t)
    (harch : alookup t.archived_payouts id = some p) :
    alookup (ContractTreasury.cancel_payout env t pid).1.archived_payouts id = some p := by
  by_cases hown : env.caller ≠ t.owner
  · unfold ContractTreasury.cancel_payout
    rw [if_pos hown]
    exact harch
  · cases hget : ContractTreasury.get_payout_by_id t pid with
    | none =>
        unfold ContractTreasury.cancel_payout
        rw [if_neg hown, hget]
        exact harch
    | some payout =>
        by_cases hstat : ContractTreasury.payoutStatus payout = .Pending
        · have hred := cancel_payout_red env t pid payout hown hget (by simp [hstat])
          obtain ⟨hpid, hpend, hlt, pos, hpos⟩ := get_pending_via_index hinv hget hstat
          have harch_eq : (ContractTreasury.cancel_payout env t pid).1.archived_payouts =
              ainsert t.archived_payouts pid
                (ContractTreasury.set_status_cancelled env.block_number payout) := by
            rw [hred]
            rfl
          rw [harch_eq]
          have hne : pid ≠ id := by
            intro heq
            subst heq
            have hnone := hinv.2.1 (pid, p) (alookup_mem harch)
            simp [hpos] at hnone
          rw [alookup_ainsert_ne hne]
          exact harch
        · unfold ContractTreasury.cancel_payout
          rw [if_neg hown, hget]
          dsimp only
          rw [if_pos hstat]
          exact harch

theorem process_payouts_red_fail (env : ContractTreasury.Env)
    (t : ContractTreasury.Treasury)
    (hproc : ¬ t.is_processing = true)
    (hrun : ContractTreasury.run_transfers env
      (ContractTreasury.select_ready env.block_number { t with is_processing := true }) 0 =
        none) :
    ContractTreasury.process_payouts env t =
      ({ t with is_processing := false }, .error .InsufficientBalance) := by
  unfold ContractTreasury.process_payouts
  rw [if_neg hproc]
  dsimp only
  rw [hrun]

theorem process_payouts_red (env : ContractTreasury.Env)
    (t : ContractTreasury.Treasury)
    (hproc : ¬ t.is_processing = true)
    (ids : List Nat)
    (hrun : ContractTreasury.run_transfers env
      (ContractTreasury.select_ready env.block_number { t with is_processing := true }) 0 =
        some ids) :
    ContractTreasury.process_payouts env t =
      (let t1 := { t with is_processing := true }
       let R := ContractTreasury.select_ready env.block_number t1
       let t2 := ContractTreasury.handle_processed_payouts env.block_number R t1
       let t3 := ContractTreasury.remove_processed_ids ids t2
       let t4 := { t3 with pending_count := t3.pending_count - ids.length }
       ({ t4 with is_processing := false },
        .ok (ids,
          R.foldl (fun acc p => satAdd256 acc (ContractTreasury.calculate_payout_amount p)) 0))) := by
  unfold ContractTreasury.process_payouts
  rw [if_neg hproc]
  dsimp only
  rw [hrun]

theorem remove_stage_inv {t0 : ContractTreasury.Treasury}
    {R : List ContractTreasury.Payout} (t2 : ContractTreasury.Treasury) (ids : List Nat)
    (hfold : ContractTreasury.HppInv t0 R t2)
    (hids : ids = R.map ContractTreasury.payoutId) :
    ContractTreasury.Inv (ContractTreasury.remove_processed_ids ids t2) := by
  obtain ⟨g1, g2, g3, g4, g5, g6, g7, g8, g9⟩ := hfold
  unfold ContractTreasury.remove_processed_ids ContractTreasury.Inv
  dsimp only
  refine ⟨g1, ?_, g3, ?_, ?_, ?_, g9⟩
  · intro e he
    rcases g2 e he with hn | ⟨hp, hr⟩
    · exact remove_loop_none _ _ _ _ _ hn
    · refine remove_loop_removes _ _ _ _ _ (g7 e.1 hp) ?_
      rw [hids]
      exact listHas_iff_mem.mpr hr
  · intro e he
    exact g4 e (remove_loop_idx_subset _ _ _ _ e he)
  · intro e he
    exact g5 e (remove_loop_idx_subset _ _ _ _ e he)
  · intro e he
    exact remove_loop_key_mem _ _ _ _ (fun e2 he2 => Or.inl (g6 e2 he2)) e he

theorem process_payouts_inv (env : ContractTreasury.Env)
    (t : ContractTreasury.Treasury) (hinv : ContractTreasury.Inv t)
    (hbudget : t.next_payout_id +
      (ContractTreasury.select_ready env.block_number t).length ≤ u32Max) :
    ContractTreasury.Inv (ContractTreasury.process_payouts env t).1 := by
  by_cases hproc : t.is_processing = true
  · unfold ContractTreasury.process_payouts
    rw [if_pos hproc]
    exact hinv
  · cases hrun : ContractTreasury.run_transfers env
        (ContractTreasury.select_ready env.block_number { t with is_processing := true }) 0 with
    | none =>
        rw [process_payouts_red_fail env t hproc hrun]
        exact hinv
    | some ids =>
        rw [process_payouts_red env t hproc ids hrun]
        obtain ⟨h1, h2, h3, h4, h5, h6, h7⟩ := hinv
        have hstart : ContractTreasury.HppInv t
            (ContractTreasury.select_ready env.block_number { t with is_processing := true })
            { t with is_processing := true } :=
          ⟨h1, fun e he => Or.inl (h2 e he), h3, h4, h5, h6, fun x hx => hx, le_rfl, h7⟩
        have hqf : ∀ q ∈ ContractTreasury.select_ready env.block_number
            { t with is_processing := true },
            ContractTreasury.payoutId q ∈ t.pending_payout_ids ∧
            ContractTreasury.payoutId q ∈
              (ContractTreasury.select_ready env.block_number
                { t with is_processing := true }).map ContractTreasury.payoutId ∧
            ContractTreasury.payoutId q < t.next_payout_id := by
          intro q hq
          obtain ⟨_, _, hmem, hlt⟩ := select_ready_mem ⟨h1, h2, h3, h4, h5, h6, h7⟩ hq
          exact ⟨hmem, List.mem_map_of_mem _ hq, hlt⟩
        have hfold := hpp_fold_hppinv env.block_number t
          (ContractTreasury.select_ready env.block_number { t with is_processing := true })
          (ContractTreasury.select_ready env.block_number { t with is_processing := true })
          { t with is_processing := true } hstart hqf hbudget
        have hids := run_transfers_some_ids env
          (ContractTreasury.select_ready env.block_number { t with is_processing := true })
          0 ids hrun
        exact remove_stage_inv _ ids hfold hids

theorem process_payouts_freeze (env : ContractTreasury.Env)
    (t : ContractTreasury.Treasury) (id : Nat) (p : ContractTreasury.Payout)
    (hinv : ContractTreasury.Inv t)
    (harch : alookup t.archived_payouts id = some p) :
    alookup (ContractTreasury.process_payouts env t).1.archived_payouts id = some p := by
  by_cases hproc : t.is_processing = true
  · unfold ContractTreasury.process_payouts
    rw [if_pos hproc]
    exact harch
  · cases hrun : ContractTreasury.run_transfers env
        (ContractTreasury.select_ready env.block_number { t with is_processing := true }) 0 with
    | none =>
        rw [process_payouts_red_fail env t hproc hrun]
        exact harch
    | some ids =>
        rw [process_payouts_red env t hproc ids hrun]
        have hne : ∀ q ∈ ContractTreasury.select_ready env.block_number
            { t with is_processing := true },
            ContractTreasury.payoutId q ≠ id :=
          fun q hq => selected_id_ne_archived hinv harch hq
        exact hpp_fold_freeze env.block_number
          (ContractTreasury.select_ready env.block_number { t with is_processing := true })
          { t with is_processing := true } id p harch hne

theorem add_payout_internal_freeze (env : ContractTreasury.Env)
    (t : ContractTreasury.Treasury) (payout : ContractTreasury.Payout)
    (id : Nat) (p : ContractTreasury.Payout)
    (harch : alookup t.archived_payouts id = some p) :
    alookup (ContractTreasury.add_payout_internal env t payout).1.archived_payouts id =
      some p := by
  rw [add_payout_internal_archived]
  exact harch

theorem apply_op_inv (env : ContractTreasury.Env) (t : ContractTreasury.Treasury)
    (op : ContractTreasury.Op) (hinv : ContractTreasury.Inv t)
    (hb : ContractTreasury.op_budget env t op) :
    ContractTreasury.Inv (ContractTreasury.apply_op env t op) := by
  cases op with
  | addOneTime a b c => exact add_payout_internal_inv env t _ hinv hb rfl
  | addRecurring a b c d f => exact add_payout_internal_inv env t _ hinv hb rfl
  | addVested a b c d f =>
      show ContractTreasury.Inv (ContractTreasury.add_vested_payout env t a b c d f).1
      unfold ContractTreasury.add_vested_payout
      dsimp only
      split
      · exact hinv
      · exact add_payout_internal_inv env t _ hinv hb rfl
  | cancel pid => exact cancel_payout_inv env t pid hinv
  | processOp => exact process_payouts_inv env t hinv hb

theorem apply_op_freeze (env : ContractTreasury.Env) (t : ContractTreasury.Treasury)
    (op : ContractTreasury.Op) (id : Nat) (p : ContractTreasury.Payout)
    (hinv : ContractTreasury.Inv t)
    (harch : alookup t.archived_payouts id = some p) :
    alookup (ContractTreasury.apply_op env t op).archived_payouts id = some p := by
  cases op with
  | addOneTime a b c => exact add_payout_internal_freeze env t _ id p harch
  | addRecurring a b c d f => exact add_payout_internal_freeze env t _ id p harch
  | addVested a b c d f =>
      show alookup (ContractTreasury.add_vested_payout env t a b c d f).1.archived_payouts
        id = some p
      unfold ContractTreasury.add_vested_payout
      dsimp only
      split
      · exact harch
      · exact add_payout_internal_freeze env t _ id p harch
  | cancel pid => exact cancel_payout_freeze env t pid id p hinv harch
  | processOp => exact process_payouts_freeze env t id p hinv harch

theorem run_ops_inv :
    ∀ (ops : List (ContractTreasury.Env × ContractTreasury.Op))
      (t : ContractTreasury.Treasury),
      ContractTreasury.Inv t → ContractTreasury.steps_ok ops t →
      ContractTreasury.Inv (ContractTreasury.run_ops ops t) := by
  intro ops
  induction ops with
  | nil => intro t h _; exact h
  | cons step rest ih =>
      intro t h hs
      obtain ⟨e, op⟩ := step
      obtain ⟨hb, hrest⟩ := hs
      exact ih _ (apply_op_inv e t op h hb) hrest

theorem run_ops_freeze :
    ∀ (ops : List (ContractTreasury.Env × ContractTreasury.Op))
      (t : ContractTreasury.Treasury) (id : Nat) (p : ContractTreasury.Payout),
      ContractTreasury.Inv t → ContractTreasury.steps_ok ops t →
      alookup t.archived_payouts id = some p →
      alookup (ContractTreasury.run_ops ops t).archived_payouts id = some p := by
  intro ops
  induction ops with
  | nil => intro t id p _ _ h; exact h
  | cons step rest ih =>
      intro t id p hinv hs harch
      obtain ⟨e, op⟩ := step
      obtain ⟨hb, hrest⟩ := hs
      exact ih _ id p (apply_op_inv e t op hinv hb) hrest
        (apply_op_freeze e t op id p hinv harch)

theorem t_archived_inv_aux : ContractTreasury.Inv ContractTreasury.t_archived := by
  refine ⟨?_, ?_, ?_, ?_, ?_, ?_, by decide⟩
  · intro e he
    simp only [ContractTreasury.t_archived, List.mem_singleton] at he
    subst he
    exact ⟨rfl, rfl⟩
  · intro e he
    rfl
  · intro e he
    simp only [ContractTreasury.t_archived, List.mem_singleton] at he
    subst he
    decide
  · intro e he
    simp [ContractTreasury.t_archived] at he
  · intro e he
    simp [ContractTreasury.t_archived] at he
  · intro e he
    simp [ContractTreasury.t_archived] at he

/-- C9: once a payout is archived under a terminal status, every subsequent
sequence of submit / cancel / settlement operations (within the id-counter
budget) leaves its archived record byte-identical, `get_payout` keeps
returning that terminal record, and no settlement call ever selects its id
for payment again. -/
theorem c9_terminal_frozen
    (ops : List (ContractTreasury.Env × ContractTreasury.Op))
    (t : ContractTreasury.Treasury) (id : Nat) (p : ContractTreasury.Payout)
    (hinv : ContractTreasury.Inv t)
    (hok : ContractTreasury.steps_ok ops t)
    (harch : alookup t.archived_payouts id = some p) :
    alookup (ContractTreasury.run_ops ops t).archived_payouts id = some p ∧
    ContractTreasury.get_payout_by_id (ContractTreasury.run_ops ops t) id = some p ∧
    ContractTreasury.isTerminal (ContractTreasury.payoutStatus p) = true ∧
    ∀ (env : ContractTreasury.Env) (q : ContractTreasury.Payout),
      q ∈ ContractTreasury.select_ready env.block_number
        (ContractTreasury.run_ops ops t) →
      ContractTreasury.payoutId q ≠ id := by
  have hfinv : ContractTreasury.Inv (ContractTreasury.run_ops ops t) :=
    run_ops_inv ops t hinv hok
  have hf : alookup (ContractTreasury.run_ops ops t).archived_payouts id = some p :=
    run_ops_freeze ops t id p hinv hok harch
  have hidx : alookup (ContractTreasury.run_ops ops t).payout_index id = none :=
    hfinv.2.1 (id, p) (alookup_mem hf)
  refine ⟨hf, ?_, (hinv.1 (id, p) (alookup_mem harch)).1,
    fun env q hq => selected_id_ne_archived hfinv hf hq⟩
  simp only [ContractTreasury.get_payout_by_id, hidx]
  exact hf

theorem c9_terminal_frozen_witness :
    ContractTreasury.get_payout_by_id
      (ContractTreasury.run_ops
        [(ContractTreasury.env_ok, .processOp)] ContractTreasury.t_archived) 0 =
      some (.OneTime
        { data := { to_addr := 5, amount := 1000000, scheduled_block := none },
          id := 0,
          created_block := 0,
          status := .Completed 0 }) :=
  (c9_terminal_frozen [(ContractTreasury.env_ok, .processOp)]
    ContractTreasury.t_archived 0 _ t_archived_inv_aux
    ⟨show ContractTreasury.t_archived.next_payout_id +
        (ContractTreasury.select_ready ContractTreasury.env_ok.block_number
          ContractTreasury.t_archived).length ≤ u32Max by decide,
      trivial⟩ rfl).2.1

/-- Refutation of C9 as frozen: in the saturated-counter configuration
`t_saturated`, id `u32::MAX` is archived with terminal status `Completed 0`,
yet one further submission mints the very same id again (`saturating_add`
pins the counter at `u32::MAX`) and re-points the payout index at the fresh
record, so `get_payout` for the already-settled id returns a `Pending`
record. -/
theorem c9_terminal_frozen_counterexample :
    alookup ContractTreasury.t_saturated.archived_payouts u32Max =
      some (.OneTime
        { data := { to_addr := 5, amount := 1000000, scheduled_block := none },
          id := u32Max, created_block := 0, status := .Completed 0 }) ∧
    ContractTreasury.isTerminal (.Completed 0) = true ∧
    ContractTreasury.get_payout_by_id
      (ContractTreasury.run_ops
        [(ContractTreasury.env_ok, .addOneTime 9 2000000 none)]
        ContractTreasury.t_saturated) u32Max =
      some (.OneTime
        { data := { to_addr := 9, amount := 2000000, scheduled_block := none },
          id := u32Max, created_block := 0, status := .Pending }) ∧
    ContractTreasury.isTerminal .Pending = false :=
  ⟨rfl, rfl, rfl, rfl⟩
